import Mathlib

/-!
# Mesh pool of `src/lib/createMeshPool.js`

A shallow embedding of the decoration pool: the slot record, the free-slot
search, emission, per-frame update, reset, the animation hand-off and the
construction of the geometry cache.

Conventions of the embedding.

* JavaScript numbers are rationals (`ℚ`), with exact arithmetic; rounding,
  infinities and NaN of IEEE doubles are outside the model.
* `Math.random()` reads the next element of an explicit stream of draws.
* The slot array `meshes` is a list; a slot is named by its index.
* A `TypeError` raised on a `null` receiver is an explicit completion value,
  returned together with the state at the point of the throw.
-/

namespace MeshPool

/-! ## Constants of the module closure -/

/-- The constant `INITIAL_Y = [ -5, -3 ]`, as the pair of its two entries. -/
def INITIAL_Y : ℚ × ℚ := (-5, -3)

/-- The constant `LOWEST_Y = INITIAL_Y[0]`. -/
def LOWEST_Y : ℚ := INITIAL_Y.1

/-- The constant `meshesPerEmit = 2`. -/
def meshesPerEmit : Nat := 2

/-- The constant `totalGeometries = 100`. -/
def totalGeometries : Nat := 100

/-- The constant `totalMeshes = 750`. -/
def totalMeshes : Nat := 750

/-! ## Random draws -/

/-- Source of the `Math.random()` results: a stream of draws and a cursor. -/
structure Rng where
  draws : Nat → ℚ
  pos : Nat

/-- Every draw of the stream lies in `[0, 1)`, as `Math.random()` promises. -/
def Rng.Valid (g : Rng) : Prop := ∀ k, 0 ≤ g.draws k ∧ g.draws k < 1

/-- One call of `Math.random()`: the draw under the cursor, cursor advanced. -/
def mathRandom (g : Rng) : ℚ × Rng := (g.draws g.pos, { g with pos := g.pos + 1 })

/-- The helper `random(min, max)` of the `random-float` package:
`Math.random() * (max - min) + min`. -/
def random (min max : ℚ) (g : Rng) : ℚ × Rng :=
  let (u, g1) := mathRandom g
  (u * (max - min) + min, g1)

/-! ## Data model -/

/-- A `THREE.Vector2`. -/
structure Vec2 where
  x : ℚ
  y : ℚ
  deriving DecidableEq, Repr

/-- The shader uniforms of a slot's cloned material. The colour records the
style last handed to `setStyle`; `none` is the colour of a fresh material or
the JavaScript `undefined` read past the end of a palette. -/
structure Uniforms where
  screenOffset : Vec2
  iGlobalTime : ℚ
  opacity : ℚ
  animate : ℚ
  color : Option String
  dance : ℚ
  deriving DecidableEq, Repr

/-- Names of the easing curves the source passes to the timeline. -/
inductive Ease where
  | expoOut
  | quadOut
  deriving DecidableEq, Repr

/-- The two tweens `animateInMesh` schedules: the scale-in tween, whose
`update` handler copies the tweened scalar to `mesh.scale`, and the fade-out
tween on `uniforms.animate`, whose `complete` handler deactivates the slot. -/
inductive TweenKind where
  | scaleIn
  | fadeOut
  deriving DecidableEq, Repr

/-- Modelled from the spec: one pending tween of a `tweenr` timeline (the
package is not part of the source tree). It interpolates from `fromValue` to
`toValue` over `duration` seconds after `delay` seconds; `time` is the time
elapsed since it was scheduled. -/
structure Tween where
  kind : TweenKind
  fromValue : ℚ
  toValue : ℚ
  duration : ℚ
  delay : ℚ
  ease : Ease
  time : ℚ
  deriving DecidableEq, Repr

/-- A slot of the pool: a `THREE.Mesh` with the fields the module adds. -/
structure Mesh where
  active : Bool
  visible : Bool
  positionY : ℚ
  rotationY : ℚ
  rotationFactor : ℚ
  speed : ℚ
  scale : ℚ
  screenOffset : Vec2
  boundingMinY : ℚ
  boundingMaxY : ℚ
  wireframe : Bool
  uniforms : Uniforms
  timeline : List Tween
  deriving DecidableEq, Repr

/-- The state of the module closure: the slot array, the clock `time` and the
`y` of `cameraWorldVector`, fixed when the pool is created. -/
structure Pool where
  meshes : List Mesh
  time : ℚ
  cameraY : ℚ
  deriving DecidableEq, Repr

/-! ## Timeline -/

/-- Modelled from the spec: `timeline.cancel()` of the `tweenr` package drops
every pending tween at once and fires no completion callback. -/
def cancel (_timeline : List Tween) : List Tween := []

/-! ## Free-slot search -/

/-- The loop of `findFreeMesh` from index `i` on, over the slots not yet
visited. -/
def findFreeMeshFrom : List Mesh → Nat → Option Nat
  | [], _ => none
  | m :: rest, i => if !m.active then some i else findFreeMeshFrom rest (i + 1)

/-- The function `findFreeMesh`: the index of the first slot with
`active == false`, or `none` for the `null` result. It reads the slot array and
writes nothing. -/
def findFreeMesh (meshes : List Mesh) : Option Nat := findFreeMeshFrom meshes 0

/-! ## Reset and activation -/

/-- The function `resetMesh`, assignment by assignment. -/
def resetMesh (mesh : Mesh) (g : Rng) : Mesh × Rng :=
  let (rotationFactor, g1) := random (-1/2) (1/2) g
  let (speed, g2) := random (1/2) 1 g1
  let (y, g3) := random INITIAL_Y.1 INITIAL_Y.2 g2
  let (coin, g4) := mathRandom g3
  let (dance, g5) := if coin > 1/2 then random 0 1 g4 else (0, g4)
  ({ mesh with
      rotationFactor := rotationFactor
      speed := speed
      active := false
      rotationY := 0
      positionY := y
      visible := false
      uniforms := { mesh.uniforms with
        animate := 0
        dance := dance
        screenOffset := mesh.screenOffset
        opacity := 0 }
      timeline := cancel mesh.timeline }, g5)

/-- The constant `minScale = 1e-10` of `animateInMesh`. -/
def minScale : ℚ := 1 / 10000000000

/-- The function `animateInMesh`: flags set, timeline cancelled, uniforms set,
then the scale-in tween and the fade-out tween scheduled in that order. The
draws are taken in evaluation order: `scaleDuration`, the fade-out `duration`,
then the extra `delay`. -/
def animateInMesh (mesh : Mesh) (g : Rng) : Mesh × Rng :=
  let (scaleDuration, g1) := random (1/2) 1 g
  let (fadeDuration, g2) := random (1/2) 1 g1
  let (extraDelay, g3) := random 0 1 g2
  ({ mesh with
      active := true
      visible := true
      uniforms := { mesh.uniforms with animate := 1, opacity := 1 }
      scale := minScale
      timeline := cancel mesh.timeline ++
        [ { kind := TweenKind.scaleIn, fromValue := 0, toValue := 1,
            duration := scaleDuration, delay := 0, ease := Ease.expoOut, time := 0 },
          { kind := TweenKind.fadeOut, fromValue := 1, toValue := 0,
            duration := fadeDuration, delay := scaleDuration + extraDelay,
            ease := Ease.quadOut, time := 0 } ] }, g3)

/-! ## Emission -/

/-- How a call ended: it returned, or a `TypeError` was thrown. -/
inductive Completion where
  | normal
  | typeError
  deriving DecidableEq, Repr

/-- The result of `emit`: the slot array and the draw cursor when the call
ended, and how it ended. -/
structure EmitResult where
  meshes : List Mesh
  rng : Rng
  completion : Completion

/-- The palette lookup `palette[Math.floor(u * palette.length)]`; `none` is
the `undefined` read outside the array. -/
def pickColor (palette : List String) (u : ℚ) : Option String :=
  palette[⌊u * (palette.length : ℚ)⌋.toNat]?

/-- The body of the loop of `emit` after the free slot `i` was found: the
slot's `screenOffset` and colour are written, then `resetMesh` and
`animateInMesh` run on it. -/
def activate (screenPosition : Vec2) (color : Option String) (mesh : Mesh) (g : Rng) :
    Mesh × Rng :=
  let m1 := { mesh with screenOffset := screenPosition }
  let m2 := { m1 with uniforms := { m1.uniforms with color := color } }
  let (m3, g1) := resetMesh m2 g
  animateInMesh m3 g1

/-- The loop of `emit` with `k` iterations left. The colour is drawn before the
free slot is looked up; a `null` slot makes `mesh.screenOffset` throw. -/
def emitLoop (screenPosition : Vec2) (palette : List String) :
    Nat → List Mesh → Rng → EmitResult
  | 0, meshes, g => ⟨meshes, g, Completion.normal⟩
  | k + 1, meshes, g =>
    let (u, g1) := mathRandom g
    let color := pickColor palette u
    match findFreeMesh meshes with
    | none => ⟨meshes, g1, Completion.typeError⟩
    | some i =>
      match meshes[i]? with
      | none => ⟨meshes, g1, Completion.typeError⟩
      | some mesh =>
        let (m, g2) := activate screenPosition color mesh g1
        emitLoop screenPosition palette k (meshes.set i m) g2

/-- The function `emit(screenPosition, palette)`. -/
def emit (screenPosition : Vec2) (palette : List String) (meshes : List Mesh) (g : Rng) :
    EmitResult :=
  emitLoop screenPosition palette meshesPerEmit meshes g

/-! ## Per-frame update -/

/-- The local `meshHeight` of `update`: the height of the slot's bounding
region. -/
def meshHeight (m : Mesh) : ℚ := m.boundingMaxY - m.boundingMinY

/-- The local `minY` of `update`. -/
def minY (m : Mesh) : ℚ := LOWEST_Y - meshHeight m * 2

/-- The local `maxY` of `update`; `cameraY` is `cameraWorldVector.y`. -/
def maxY (cameraY : ℚ) (m : Mesh) : ℚ := meshHeight m * 2 + cameraY + 5

/-- The body of the loop of `update` for one slot; `time` is the clock after
it was advanced. -/
def updateMesh (dt globalSpeed time cameraY : ℚ) (m : Mesh) : Mesh :=
  if !m.active then m
  else
    let m1 := { m with uniforms :=
      { m.uniforms with screenOffset := m.screenOffset, iGlobalTime := time } }
    let m2 := { m1 with positionY := m1.positionY + (dt / 1000) * m1.speed * globalSpeed }
    let m3 := { m2 with rotationY := m2.rotationY + (dt / 1000) * m2.rotationFactor }
    if m3.active = true ∧ (m3.positionY > maxY cameraY m3 ∨ m3.positionY < minY m3) then
      { m3 with active := false, visible := false }
    else m3

/-- The function `update(dt, width, height, globalSpeed = 1)`; an omitted
`globalSpeed` is `none` and takes the default `1`. -/
def update (dt _width _height : ℚ) (globalSpeed : Option ℚ) (p : Pool) : Pool :=
  let time := p.time + dt / 1000
  { p with
    time := time
    meshes := p.meshes.map (updateMesh dt (globalSpeed.getD 1) time p.cameraY) }

/-! ## Pool creation -/

/-- The wireframe flags of the array `materials = [shaderMat, shaderMatWire]`. -/
def materials : List Bool := [false, true]

/-- A `THREE.Mesh` as `createMesh` has it before `resetMesh` runs: defaults of
`THREE.Object3D`, uniforms of the cloned material, an empty timeline. The
bounding region `box` is what THREE computes from the chosen geometry. -/
def freshMesh (box : ℚ × ℚ) (wireframe : Bool) : Mesh :=
  { active := false
    visible := true
    positionY := 0
    rotationY := 0
    rotationFactor := 0
    speed := 0
    scale := 1
    screenOffset := ⟨0, 0⟩
    boundingMinY := box.1
    boundingMaxY := box.2
    wireframe := wireframe
    uniforms :=
      { screenOffset := ⟨0, 0⟩, iGlobalTime := 0, opacity := 1, animate := 0,
        color := none, dance := 0 }
    timeline := [] }

/-- The function `createMesh`: one draw picks the geometry (whose bounding
region is the parameter `box`), one draw picks the material, then the slot is
reset. -/
def createMesh (box : ℚ × ℚ) (g : Rng) : Mesh × Rng :=
  let (_uGeometry, g1) := mathRandom g
  let (uMaterial, g2) := mathRandom g1
  let wireframe := (materials[⌊uMaterial * (materials.length : ℚ)⌋.toNat]?).getD false
  resetMesh (freshMesh box wireframe) g2

/-- The expression `newArray(n).map(createMesh)`, slot `i` getting the
bounding region `box i`; the counter `i` runs upward from `start`. -/
def createMeshes (box : Nat → ℚ × ℚ) : Nat → Nat → Rng → List Mesh × Rng
  | 0, _, g => ([], g)
  | n + 1, start, g =>
    let (m, g1) := createMesh (box start) g
    let (rest, g2) := createMeshes box n (start + 1) g1
    (m :: rest, g2)

/-- The state of the closure when the module function returns, for a pool of
`n` slots (`totalMeshes` in the source). -/
def createPool (n : Nat) (box : Nat → ℚ × ℚ) (cameraY : ℚ) (g : Rng) : Pool :=
  { meshes := (createMeshes box n 0 g).1, time := 0, cameraY := cameraY }

/-! ## Timeline progress -/

/-- Modelled from the spec: the progress of a tween of the `tweenr` timeline is
clamped to `[0, 1]`, so that the value runs from its start to its end and no
further. -/
def clamp01 (a : ℚ) : ℚ := if a < 0 then 0 else if a > 1 then 1 else a

/-- What a tween's current value is written to: the scale-in tween's `update`
handler sets `mesh.scale`, the fade-out tween drives `uniforms.animate`. -/
def applyTween (kind : TweenKind) (value : ℚ) (m : Mesh) : Mesh :=
  match kind with
  | TweenKind.scaleIn => { m with scale := value }
  | TweenKind.fadeOut => { m with uniforms := { m.uniforms with animate := value } }

/-- The `complete` handler of a tween: only the fade-out tween has one, and it
sets `active` and `visible` to `false`. -/
def onComplete (kind : TweenKind) (m : Mesh) : Mesh :=
  match kind with
  | TweenKind.scaleIn => m
  | TweenKind.fadeOut => { m with active := false, visible := false }

/-- Modelled from the spec: one tween of a `tweenr` timeline advanced by `dt`
seconds. Once the delay has passed the eased value is written; once delay and
duration have passed the tween completes and is dropped (`none`). The easing
curves are those of the package, given as `easeFn`. -/
def tickTween (easeFn : Ease → ℚ → ℚ) (dt : ℚ) (tw : Tween) (m : Mesh) :
    Mesh × Option Tween :=
  let time := tw.time + dt
  let m1 :=
    if time - tw.delay > 0 then
      applyTween tw.kind
        (tw.fromValue + (tw.toValue - tw.fromValue) *
          easeFn tw.ease (clamp01 ((time - tw.delay) / tw.duration))) m
    else m
  if time ≥ tw.duration + tw.delay then (onComplete tw.kind m1, none)
  else (m1, some { tw with time := time })

/-- Modelled from the spec: every pending tween of a timeline advanced by
`dt` seconds, in scheduling order; the tweens still pending are returned. -/
def tickTimeline (easeFn : Ease → ℚ → ℚ) (dt : ℚ) : List Tween → Mesh → Mesh × List Tween
  | [], m => (m, [])
  | tw :: rest, m =>
    let (m1, tw1) := tickTween easeFn dt tw m
    let (m2, rest1) := tickTimeline easeFn dt rest m1
    (m2, match tw1 with
      | some t => t :: rest1
      | none => rest1)

/-- Modelled from the spec: the timeline of one slot advanced by `dt`
seconds. -/
def tickMesh (easeFn : Ease → ℚ → ℚ) (dt : ℚ) (m : Mesh) : Mesh :=
  let (m1, tl) := tickTimeline easeFn dt m.timeline m
  { m1 with timeline := tl }

/-- A run of timeline ticks on one slot, with the steps `dts` in order. -/
def runTicks (easeFn : Ease → ℚ → ℚ) (dts : List ℚ) (m : Mesh) : Mesh :=
  dts.foldl (fun s dt => tickMesh easeFn dt s) m

/-- The slot `i` of a pool replaced by `f` of it. -/
def modifySlot (f : Mesh → Mesh) (i : Nat) (p : Pool) : Pool :=
  { p with meshes := p.meshes.modify f i }

/-! ## Reachable states -/

/-- The pool states reachable from creation by calls of `emit` (whether they
return or throw), calls of `update`, timeline ticks of a slot and firings of a
fade-out completion handler on a slot. -/
inductive Reachable : Pool → Prop
  | create (n : Nat) (box : Nat → ℚ × ℚ) (cameraY : ℚ) (g : Rng) :
      g.Valid → Reachable (createPool n box cameraY g)
  | emit (p : Pool) (screenPosition : Vec2) (palette : List String) (g : Rng) :
      g.Valid → Reachable p →
      Reachable { p with meshes := (emit screenPosition palette p.meshes g).meshes }
  | update (p : Pool) (dt width height : ℚ) (globalSpeed : Option ℚ) :
      Reachable p → Reachable (update dt width height globalSpeed p)
  | tick (p : Pool) (easeFn : Ease → ℚ → ℚ) (dt : ℚ) (i : Nat) :
      Reachable p → Reachable (modifySlot (tickMesh easeFn dt) i p)
  | complete (p : Pool) (i : Nat) :
      Reachable p → Reachable (modifySlot (onComplete TweenKind.fadeOut) i p)

/-! ## Predicates used by the statements -/

/-- The state in which `emit` leaves a slot it has activated. -/
def ActivatedBy (sp : Vec2) (palette : List String) (m : Mesh) : Prop :=
  m.active = true ∧ m.visible = true ∧ m.screenOffset = sp ∧ m.uniforms.screenOffset = sp ∧
    (∃ c ∈ palette, m.uniforms.color = some c) ∧ m.rotationY = 0 ∧
    (-5 ≤ m.positionY ∧ m.positionY ≤ -3) ∧
    m.uniforms.animate = 1 ∧ m.uniforms.opacity = 1

/-- What every slot of a reachable pool satisfies: `visible` equals `active`,
and the drift speed is the value drawn by `resetMesh`, in `[1/2, 1)`. -/
def SlotOk (m : Mesh) : Prop := m.visible = m.active ∧ 1/2 ≤ m.speed ∧ m.speed < 1

/-- A step that leaves the speed alone and either keeps both flags or clears
both. -/
def Quiet (m m1 : Mesh) : Prop :=
  m1.speed = m.speed ∧
    ((m1.active = m.active ∧ m1.visible = m.visible) ∨ (m1.active = false ∧ m1.visible = false))

/-! ## Concrete states used by the examples -/

/-- A slot with the given `active` flag, `visible` equal to it, and the other
fields as `createMesh` leaves them for a geometry of bounding region `[0, 1]`
when every draw is `1/4`. -/
def sampleMesh (active : Bool) : Mesh :=
  { active := active
    visible := active
    positionY := -9/2
    rotationY := 0
    rotationFactor := -1/4
    speed := 5/8
    scale := 1
    screenOffset := ⟨0, 0⟩
    boundingMinY := 0
    boundingMaxY := 1
    wireframe := false
    uniforms :=
      { screenOffset := ⟨0, 0⟩, iGlobalTime := 0, opacity := 0, animate := 0,
        color := none, dance := 0 }
    timeline := [] }

/-- A stream of draws that are all `1/4`. -/
def quarterRng : Rng := { draws := fun _ => 1/4, pos := 0 }

/-- The slot a call of `emit` at `⟨1, 2⟩` with the palette `["red", "blue"]`
and the draws of `quarterRng` makes of `sampleMesh false`. -/
def emittedMesh : Mesh :=
  { active := true
    visible := true
    positionY := -9/2
    rotationY := 0
    rotationFactor := -1/4
    speed := 5/8
    scale := minScale
    screenOffset := ⟨1, 2⟩
    boundingMinY := 0
    boundingMaxY := 1
    wireframe := false
    uniforms :=
      { screenOffset := ⟨1, 2⟩, iGlobalTime := 0, opacity := 1, animate := 1,
        color := some "red", dance := 0 }
    timeline :=
      [ { kind := TweenKind.scaleIn, fromValue := 0, toValue := 1, duration := 5/8,
          delay := 0, ease := Ease.expoOut, time := 0 },
        { kind := TweenKind.fadeOut, fromValue := 1, toValue := 0, duration := 5/8,
          delay := 7/8, ease := Ease.quadOut, time := 0 } ] }

/-- A pool of three free slots, as `createPool` builds it when every draw is
`1/4`. -/
def samplePool : Pool :=
  { meshes := [sampleMesh false, sampleMesh false, sampleMesh false], time := 0, cameraY := 0 }

/-- The pool `samplePool` after one call of `emit`: slots 0 and 1 activated. -/
def emittedPool : Pool :=
  { meshes := [emittedMesh, emittedMesh, sampleMesh false], time := 0, cameraY := 0 }

/-- An active slot of bounding height 1 and speed 1 placed one unit above its
upper exit bound (`maxY = 7` for `cameraY = 0`). -/
def overshootMesh : Mesh := { sampleMesh true with speed := 1, positionY := 8 }

/-- The value of `uniforms.animate` a time `t` after a fade-out tween with
the given delay and duration was scheduled, as `tickTween` writes it: `1`
until the delay has passed, then `1 + (0 - 1) * ease(progress)`. -/
def fadeValue (easeFn : Ease → ℚ → ℚ) (delay duration t : ℚ) : ℚ :=
  if t - delay > 0 then
    1 + (0 - 1) * easeFn Ease.quadOut (clamp01 ((t - delay) / duration))
  else 1

/-- The fade-out tween `animateInMesh` schedules, with the given duration and
delay and the elapsed time `t`. -/
def fadeTween (duration delay t : ℚ) : Tween :=
  { kind := TweenKind.fadeOut, fromValue := 1, toValue := 0, duration := duration,
    delay := delay, ease := Ease.quadOut, time := t }

/-- The scale-in tween `animateInMesh` schedules, with the given duration and
the elapsed time `t`. -/
def scaleTween (duration t : ℚ) : Tween :=
  { kind := TweenKind.scaleIn, fromValue := 0, toValue := 1, duration := duration,
    delay := 0, ease := Ease.expoOut, time := t }

/-- The state of a slot a time `t` after `animateInMesh` scheduled a fade-out
tween of the given duration and delay, when only its timeline has run since:
before the tween's end the tween is pending behind scale-in tweens and the
slot is active, from its end on the tween is gone, the slot is inactive and
`uniforms.animate` holds the tween's final value. -/
def Fading (easeFn : Ease → ℚ → ℚ) (duration delay t : ℚ) (m : Mesh) : Prop :=
  ∃ pre : List Tween, (∀ tw ∈ pre, tw.kind = TweenKind.scaleIn) ∧
    ((t < delay + duration ∧ m.timeline = pre ++ [fadeTween duration delay t] ∧
        m.active = true ∧ m.visible = true ∧
        m.uniforms.animate = fadeValue easeFn delay duration t) ∨
      (delay + duration ≤ t ∧ m.timeline = pre ∧ m.active = false ∧ m.visible = false ∧
        m.uniforms.animate = 1 + (0 - 1) * easeFn Ease.quadOut 1))

/-- An interpretation of the easing names for the examples: `quadOut` is the
curve `-t * (t - 2)` of the `eases` package; `expoOut`, which is not rational,
is replaced by the identity. -/
def sampleEase : Ease → ℚ → ℚ
  | Ease.quadOut, t => -t * (t - 2)
  | Ease.expoOut, t => t

/-- The slot `emittedMesh` mid-animation: its scale-in tween has completed and
its fade-out tween (delay `7/8`, duration `5/8`) has run for `7/5` seconds, so
that it is due to complete `1/10` of a second later. -/
def agedMesh : Mesh :=
  { emittedMesh with
    scale := 1
    uniforms := { emittedMesh.uniforms with animate := 16/625 }
    timeline := [fadeTween (5/8) (7/8) (7/5)] }

/-- The number of free slots of the pool: those with `active == false`. -/
def freeCount (meshes : List Mesh) : Nat := meshes.countP (fun m => !m.active)

/-- The first call of the three-call scenario: `emit` on a pool of three free
slots. -/
def scenarioFirst : EmitResult :=
  emit ⟨1, 2⟩ ["red", "blue"] [sampleMesh false, sampleMesh false, sampleMesh false] quarterRng

/-- The second call of the scenario, on the state the first call left. -/
def scenarioSecond : EmitResult :=
  emit ⟨1, 2⟩ ["red", "blue"] scenarioFirst.meshes scenarioFirst.rng

/-- The third call of the scenario, on the state the second call left. -/
def scenarioThird : EmitResult :=
  emit ⟨1, 2⟩ ["red", "blue"] scenarioSecond.meshes scenarioSecond.rng

/-- The number of active slots of the pool. -/
def activeCount (meshes : List Mesh) : Nat := meshes.countP (fun m => m.active)

/-- The slot `emittedMesh`, still mid-animation, placed one unit above its
upper exit bound (`maxY = 7` for `cameraY = 0`). -/
def strayMesh : Mesh := { emittedMesh with positionY := 8 }

/-! ## Geometry cache -/

/-- The constant `PI = Math.PI`: the double nearest to π, which is the rational
`884279719003555 / 2^48`. -/
def PI : ℚ := 884279719003555 / 281474976710656

/-- A simplicial complex as the shape packages return it: vertex positions
and cells (index lists). -/
structure Complex where
  positions : List (List ℚ)
  cells : List (List Nat)
  deriving DecidableEq, Repr

/-- The option object `{ type: ... }` handed to `createGeometry`. -/
structure GeometryOptions where
  type : Nat
  deriving DecidableEq, Repr

/-- The option object `createGeometry` hands to `geoPieceRing`. -/
structure PieceRingOptions where
  y : ℚ
  height : ℚ
  radius : ℚ
  numPieces : ℤ
  quadsPerPiece : Nat
  pieceSize : ℚ
  deriving DecidableEq, Repr

/-- The option object `createGeometry` hands to `geoArc`. -/
structure ArcOptions where
  y : ℚ
  startRadian : ℚ
  endRadian : ℚ
  innerRadius : ℚ
  outerRadius : ℚ
  numBands : Nat
  numSlices : Nat
  deriving DecidableEq, Repr

/-- The two shape generators, functions of the packages `geo-piecering` and
`geo-arc`, which are not part of the source tree: they are parameters of the
cache construction. -/
structure Generators where
  geoPieceRing : PieceRingOptions → Complex
  geoArc : ArcOptions → Complex

/-- Modelled from the spec: the shape descriptor that `createComplex` (module
`./createComplex`, absent from the source tree) builds from a complex and the
options; it is an object, which `filter(Boolean)` keeps. -/
structure Geometry where
  complex : Complex
  type : Nat
  deriving DecidableEq, Repr

/-- Modelled from the spec: the call `createComplex(complex, opt)` of the
absent module `./createComplex`, which yields a shape descriptor. -/
def createComplex (complex : Complex) (opt : GeometryOptions) : Geometry :=
  { complex := complex, type := opt.type }

/-- The function `createGeom`: `null` for a complex without cells, otherwise
the descriptor built by `createComplex`. -/
def createGeom (complex : Complex) (opt : GeometryOptions) : Option Geometry :=
  if complex.cells.length = 0 then none else some (createComplex complex opt)

/-- The draws of the branch `opt.type === 0` of `createGeometry`, in evaluation
order, and the option object built from them. -/
def pieceRingOptions (g : Rng) : PieceRingOptions × Rng :=
  let (n, g1) := random 5 40 g
  let numPieces := ⌊n⌋
  let (pieceSize, g2) := random (1/4) (3/4) g1
  let (height, g3) := random (1/100) 1 g2
  let (radius, g4) := random (1/10) (3/2) g3
  ({ y := 0, height := height, radius := radius, numPieces := numPieces, quadsPerPiece := 1,
     pieceSize := (PI * 2) * 1 / (numPieces : ℚ) * pieceSize }, g4)

/-- The draws of the branch `opt.type === 1` of `createGeometry`, in evaluation
order, and the option object built from them. -/
def arcOptions (g : Rng) : ArcOptions × Rng :=
  let (radius, g1) := random 0 2 g
  let (startRadian, g2) := random (-PI) PI g1
  let (endRadian, g3) := random (-PI) PI g2
  let (extra, g4) := random (5/1000) (15/100) g3
  ({ y := 0, startRadian := startRadian, endRadian := endRadian, innerRadius := radius,
     outerRadius := radius + extra, numBands := 2, numSlices := 90 }, g4)

/-- The function `createGeometry`: type 0 builds a piece ring, type 1 an arc,
each through `createGeom`; for any other type `geometry` stays `undefined`
(`none`). -/
def createGeometry (gens : Generators) (opt : GeometryOptions) (g : Rng) :
    Option Geometry × Rng :=
  if opt.type = 0 then
    let (o, g1) := pieceRingOptions g
    (createGeom (gens.geoPieceRing o) opt, g1)
  else if opt.type = 1 then
    let (o, g1) := arcOptions g
    (createGeom (gens.geoArc o) opt, g1)
  else (none, g)

/-- The argument `{ type: random(0, 1) > 0.5 ? 0 : 1 }` of one generator
invocation. -/
def geometryOptions (g : Rng) : GeometryOptions × Rng :=
  let (u, g1) := random 0 1 g
  ({ type := if u > 1/2 then 0 else 1 }, g1)

/-- The expression `newArray(n).map(() => createGeometry({ type: ... }))`: the
results of `n` generator invocations in order, `none` for `null`. -/
def createGeometries (gens : Generators) : Nat → Rng → List (Option Geometry) × Rng
  | 0, g => ([], g)
  | n + 1, g =>
    let (opt, g1) := geometryOptions g
    let (geometry, g2) := createGeometry gens opt g1
    let (rest, g3) := createGeometries gens n g2
    (geometry :: rest, g3)

/-- The constant `geometries`: the results of `totalGeometries` generator
invocations with the falsy ones dropped by `filter(Boolean)`. -/
def geometries (gens : Generators) (g : Rng) : List Geometry :=
  (createGeometries gens totalGeometries g).1.filterMap id

/-- The complex that an invocation of `createGeometry` hands to `createGeom`;
`none` when the type is neither 0 nor 1 and no generator is called. -/
def generatedComplex (gens : Generators) (opt : GeometryOptions) (g : Rng) : Option Complex :=
  if opt.type = 0 then some (gens.geoPieceRing (pieceRingOptions g).1)
  else if opt.type = 1 then some (gens.geoArc (arcOptions g).1)
  else none

/-- The trace of `n` generator invocations: for each, in order, its option
object and the complex it generated, with the draws threaded as
`createGeometries` threads them. -/
def invocations (gens : Generators) : Nat → Rng → List (GeometryOptions × Option Complex)
  | 0, _ => []
  | n + 1, g =>
    let (opt, g1) := geometryOptions g
    (opt, generatedComplex gens opt g1) ::
      invocations gens n (createGeometry gens opt g1).2

/-- The cache entry of one traced invocation: present when a complex was
generated and has at least one cell. -/
def cacheEntry (inv : GeometryOptions × Option Complex) : Option Geometry :=
  match inv.2 with
  | some complex => if complex.cells.length = 0 then none else some (createComplex complex inv.1)
  | none => none

/-! ## Free-slot search: lemmas -/

theorem findFreeMeshFrom_some (meshes : List Mesh) (s i : Nat)
    (h : findFreeMeshFrom meshes s = some i) :
    s ≤ i ∧ (∃ m, meshes[i - s]? = some m ∧ m.active = false) ∧
      ∀ j, j < i - s → ∃ m, meshes[j]? = some m ∧ m.active = true := by
  induction meshes generalizing s with
  | nil => simp [findFreeMeshFrom] at h
  | cons a rest ih =>
    unfold findFreeMeshFrom at h
    by_cases ha : a.active = true
    · simp only [ha, Bool.not_true, Bool.false_eq_true, if_false] at h
      obtain ⟨h1, ⟨m, hm, hma⟩, h3⟩ := ih (s + 1) h
      have hs : i - s = (i - (s + 1)) + 1 := by omega
      refine ⟨by omega, ⟨m, ?_, hma⟩, ?_⟩
      · rw [hs, List.getElem?_cons_succ]; exact hm
      · intro j hj
        cases j with
        | zero => exact ⟨a, by simp, ha⟩
        | succ j =>
          obtain ⟨m1, hm1, hm1a⟩ := h3 j (by omega)
          exact ⟨m1, by rw [List.getElem?_cons_succ]; exact hm1, hm1a⟩
    · have ha0 : a.active = false := by simpa using ha
      simp only [ha0, Bool.not_false, if_true, Option.some.injEq] at h
      subst h
      refine ⟨le_refl _, ⟨a, by simp, ha0⟩, ?_⟩
      intro j hj
      omega

theorem findFreeMeshFrom_none (meshes : List Mesh) (s : Nat) :
    findFreeMeshFrom meshes s = none ↔ ∀ m ∈ meshes, m.active = true := by
  induction meshes generalizing s with
  | nil => simp [findFreeMeshFrom]
  | cons a rest ih =>
    unfold findFreeMeshFrom
    by_cases ha : a.active = true
    · simp [ha, ih (s + 1)]
    · have ha0 : a.active = false := by simpa using ha
      simp [ha0]

theorem findFreeMesh_some (meshes : List Mesh) (i : Nat) (h : findFreeMesh meshes = some i) :
    (∃ m, meshes[i]? = some m ∧ m.active = false) ∧
      ∀ j, j < i → ∃ m, meshes[j]? = some m ∧ m.active = true := by
  have := findFreeMeshFrom_some meshes 0 i h
  simpa using this.2

theorem findFreeMesh_none (meshes : List Mesh) :
    findFreeMesh meshes = none ↔ ∀ m ∈ meshes, m.active = true :=
  findFreeMeshFrom_none meshes 0

/-! ## Reset, activation and emission: lemmas -/

theorem resetMesh_fields (mesh : Mesh) (g : Rng) :
    (resetMesh mesh g).1 =
      { mesh with
        rotationFactor := g.draws g.pos * (1/2 - -1/2) + -1/2
        speed := g.draws (g.pos + 1) * (1 - 1/2) + 1/2
        active := false
        rotationY := 0
        positionY := g.draws (g.pos + 2) * (INITIAL_Y.2 - INITIAL_Y.1) + INITIAL_Y.1
        visible := false
        uniforms := { mesh.uniforms with
          animate := 0
          dance := if g.draws (g.pos + 3) > 1/2 then g.draws (g.pos + 4) * (1 - 0) + 0 else 0
          screenOffset := mesh.screenOffset
          opacity := 0 }
        timeline := [] } := by
  unfold resetMesh random mathRandom cancel
  simp only [Nat.add_assoc, Nat.reduceAdd]
  split_ifs <;> simp

theorem resetMesh_draws (mesh : Mesh) (g : Rng) : (resetMesh mesh g).2.draws = g.draws := by
  unfold resetMesh random mathRandom
  simp only [Nat.add_assoc, Nat.reduceAdd]
  split_ifs <;> simp

theorem animateInMesh_fields (mesh : Mesh) (g : Rng) :
    (animateInMesh mesh g).1 =
      { mesh with
        active := true
        visible := true
        uniforms := { mesh.uniforms with animate := 1, opacity := 1 }
        scale := minScale
        timeline :=
          [ { kind := TweenKind.scaleIn, fromValue := 0, toValue := 1,
              duration := g.draws g.pos * (1 - 1/2) + 1/2, delay := 0,
              ease := Ease.expoOut, time := 0 },
            { kind := TweenKind.fadeOut, fromValue := 1, toValue := 0,
              duration := g.draws (g.pos + 1) * (1 - 1/2) + 1/2,
              delay := g.draws g.pos * (1 - 1/2) + 1/2 + (g.draws (g.pos + 2) * (1 - 0) + 0),
              ease := Ease.quadOut, time := 0 } ] } := by
  simp [animateInMesh, random, mathRandom, cancel]

theorem animateInMesh_draws (mesh : Mesh) (g : Rng) :
    (animateInMesh mesh g).2.draws = g.draws := by
  simp [animateInMesh, random, mathRandom]

theorem pickColor_mem (palette : List String) (u : ℚ) (h0 : 0 ≤ u) (h1 : u < 1)
    (hpal : palette ≠ []) : ∃ c ∈ palette, pickColor palette u = some c := by
  have hlen : 0 < palette.length := List.length_pos.2 hpal
  have hn : (0 : ℚ) < (palette.length : ℚ) := by exact_mod_cast hlen
  have hlo : (0 : ℤ) ≤ ⌊u * (palette.length : ℚ)⌋ := Int.floor_nonneg.2 (mul_nonneg h0 hn.le)
  have hhi : ⌊u * (palette.length : ℚ)⌋ < (palette.length : ℤ) := by
    rw [Int.floor_lt]
    have : u * (palette.length : ℚ) < 1 * (palette.length : ℚ) :=
      mul_lt_mul_of_pos_right h1 hn
    simpa using this
  have hidx : ⌊u * (palette.length : ℚ)⌋.toNat < palette.length := by omega
  refine ⟨palette[⌊u * (palette.length : ℚ)⌋.toNat], List.getElem_mem _, ?_⟩
  simp [pickColor, hidx]

theorem Rng.Valid.of_draws {g g1 : Rng} (hg : g.Valid) (h : g1.draws = g.draws) : g1.Valid := by
  intro k
  rw [h]
  exact hg k

theorem mathRandom_valid {g : Rng} (hg : g.Valid) : (mathRandom g).2.Valid :=
  hg.of_draws rfl

theorem activate_draws (sp : Vec2) (color : Option String) (mesh : Mesh) (g : Rng) :
    (activate sp color mesh g).2.draws = g.draws := by
  unfold activate
  simp only [animateInMesh_draws, resetMesh_draws]

theorem resetMesh_positionY_band (mesh : Mesh) (g : Rng) (hg : g.Valid) :
    -5 ≤ (resetMesh mesh g).1.positionY ∧ (resetMesh mesh g).1.positionY < -3 := by
  rw [resetMesh_fields]
  have h := hg (g.pos + 2)
  simp only [INITIAL_Y]
  constructor <;> linarith [h.1, h.2]

theorem activate_post (sp : Vec2) (palette : List String) (c : String) (hc : c ∈ palette)
    (mesh : Mesh) (g : Rng) (hg : g.Valid) :
    ActivatedBy sp palette (activate sp (some c) mesh g).1 := by
  unfold activate
  have hy := resetMesh_positionY_band
    { mesh with screenOffset := sp, uniforms := { mesh.uniforms with color := some c } } g hg
  simp only [animateInMesh_fields]
  rw [resetMesh_fields] at hy ⊢
  refine ⟨rfl, rfl, rfl, rfl, ⟨c, hc, rfl⟩, rfl, ⟨hy.1, hy.2.le⟩, rfl, rfl⟩

theorem emitLoop_slots (sp : Vec2) (palette : List String) (hpal : palette ≠ []) :
    ∀ (k : Nat) (meshes : List Mesh) (g : Rng), g.Valid →
      ∀ (i : Nat) (m : Mesh), meshes[i]? = some m →
        ∃ m1, (emitLoop sp palette k meshes g).meshes[i]? = some m1 ∧
          (m1 = m ∨ (m.active = false ∧ ActivatedBy sp palette m1)) := by
  intro k
  induction k with
  | zero =>
    intro meshes g _ i m hm
    exact ⟨m, by simpa [emitLoop] using hm, Or.inl rfl⟩
  | succ k ih =>
    intro meshes g hg i m hm
    unfold emitLoop
    simp only
    cases hf : findFreeMesh meshes with
    | none => exact ⟨m, by simpa using hm, Or.inl rfl⟩
    | some j =>
      obtain ⟨⟨mj, hmj, hmja⟩, _⟩ := findFreeMesh_some meshes j hf
      simp only [hmj]
      obtain ⟨c, hc, hpick⟩ := pickColor_mem palette (mathRandom g).1 (hg g.pos).1 (hg g.pos).2 hpal
      have hact : ActivatedBy sp palette
          (activate sp (pickColor palette (mathRandom g).1) mj (mathRandom g).2).1 := by
        rw [hpick]
        exact activate_post sp palette c hc mj _ (mathRandom_valid hg)
      have hg2 : (activate sp (pickColor palette (mathRandom g).1) mj (mathRandom g).2).2.Valid :=
        hg.of_draws (by rw [activate_draws]; rfl)
      generalize activate sp (pickColor palette (mathRandom g).1) mj (mathRandom g).2 = r at hact hg2
      by_cases hij : j = i
      · subst hij
        have hlt : j < meshes.length := by
          rcases Nat.lt_or_ge j meshes.length with h | h
          · exact h
          · rw [List.getElem?_eq_none h] at hm; cases hm
        have hmm : mj = m := by rw [hmj] at hm; exact Option.some.inj hm
        have hset : (meshes.set j r.1)[j]? = some r.1 := by
          simp [List.getElem?_set, hlt]
        obtain ⟨m1, hm1, hcase⟩ := ih (meshes.set j r.1) r.2 hg2 j r.1 hset
        refine ⟨m1, hm1, Or.inr ⟨hmm ▸ hmja, ?_⟩⟩
        rcases hcase with h | h
        · rw [h]; exact hact
        · exact absurd hact.1 (by rw [h.1]; simp)
      · have hset : (meshes.set j r.1)[i]? = some m := by
          rw [List.getElem?_set_ne hij]; exact hm
        exact ih (meshes.set j r.1) r.2 hg2 i m hset

/-! ## Invariants of reachable states -/

theorem Quiet.refl (m : Mesh) : Quiet m m := ⟨rfl, Or.inl ⟨rfl, rfl⟩⟩

theorem Quiet.trans {a b c : Mesh} (h1 : Quiet a b) (h2 : Quiet b c) : Quiet a c := by
  refine ⟨h2.1.trans h1.1, ?_⟩
  rcases h2.2 with h | h
  · rcases h1.2 with h' | h'
    · exact Or.inl ⟨h.1.trans h'.1, h.2.trans h'.2⟩
    · exact Or.inr ⟨h.1.trans h'.1, h.2.trans h'.2⟩
  · exact Or.inr h

theorem Quiet.slotOk {m m1 : Mesh} (h : Quiet m m1) (hm : SlotOk m) : SlotOk m1 := by
  refine ⟨?_, by rw [h.1]; exact hm.2.1, by rw [h.1]; exact hm.2.2⟩
  rcases h.2 with h' | h'
  · rw [h'.1, h'.2]; exact hm.1
  · rw [h'.1, h'.2]

theorem applyTween_quiet (kind : TweenKind) (v : ℚ) (m : Mesh) : Quiet m (applyTween kind v m) := by
  cases kind <;> exact ⟨rfl, Or.inl ⟨rfl, rfl⟩⟩

theorem onComplete_quiet (kind : TweenKind) (m : Mesh) : Quiet m (onComplete kind m) := by
  cases kind
  · exact ⟨rfl, Or.inl ⟨rfl, rfl⟩⟩
  · exact ⟨rfl, Or.inr ⟨rfl, rfl⟩⟩

theorem tickTween_quiet (easeFn : Ease → ℚ → ℚ) (dt : ℚ) (tw : Tween) (m : Mesh) :
    Quiet m (tickTween easeFn dt tw m).1 := by
  unfold tickTween
  simp only
  split_ifs
  · exact (applyTween_quiet _ _ _).trans (onComplete_quiet _ _)
  · exact onComplete_quiet _ _
  · exact applyTween_quiet _ _ _
  · exact Quiet.refl _

theorem tickTimeline_quiet (easeFn : Ease → ℚ → ℚ) (dt : ℚ) (tl : List Tween) :
    ∀ m : Mesh, Quiet m (tickTimeline easeFn dt tl m).1 := by
  induction tl with
  | nil => intro m; exact Quiet.refl m
  | cons tw rest ih =>
    intro m
    unfold tickTimeline
    exact (tickTween_quiet easeFn dt tw m).trans (ih _)

theorem tickMesh_quiet (easeFn : Ease → ℚ → ℚ) (dt : ℚ) (m : Mesh) :
    Quiet m (tickMesh easeFn dt m) := by
  unfold tickMesh
  exact tickTimeline_quiet easeFn dt m.timeline m

theorem updateMesh_quiet (dt gs time cameraY : ℚ) (m : Mesh) :
    Quiet m (updateMesh dt gs time cameraY m) := by
  unfold updateMesh
  simp only
  split_ifs
  · exact Quiet.refl m
  · exact ⟨rfl, Or.inr ⟨rfl, rfl⟩⟩
  · exact ⟨rfl, Or.inl ⟨rfl, rfl⟩⟩

theorem resetMesh_slotOk (mesh : Mesh) (g : Rng) (hg : g.Valid) : SlotOk (resetMesh mesh g).1 := by
  rw [resetMesh_fields]
  have h := hg (g.pos + 1)
  refine ⟨rfl, ?_, ?_⟩ <;> simp only <;> linarith [h.1, h.2]

theorem activate_slotOk (sp : Vec2) (color : Option String) (mesh : Mesh) (g : Rng)
    (hg : g.Valid) : SlotOk (activate sp color mesh g).1 := by
  unfold activate
  have h := resetMesh_slotOk
    { mesh with screenOffset := sp, uniforms := { mesh.uniforms with color := color } } g hg
  simp only [animateInMesh_fields]
  exact ⟨rfl, h.2.1, h.2.2⟩

theorem emitLoop_slotOk (sp : Vec2) (palette : List String) :
    ∀ (k : Nat) (meshes : List Mesh) (g : Rng), g.Valid → (∀ m ∈ meshes, SlotOk m) →
      ∀ m ∈ (emitLoop sp palette k meshes g).meshes, SlotOk m := by
  intro k
  induction k with
  | zero => intro meshes g _ h; simpa [emitLoop] using h
  | succ k ih =>
    intro meshes g hg h
    unfold emitLoop
    simp only
    cases hf : findFreeMesh meshes with
    | none => simpa using h
    | some j =>
      simp only
      cases hj : meshes[j]? with
      | none => simpa using h
      | some mj =>
        simp only
        have hok := activate_slotOk sp (pickColor palette (mathRandom g).1) mj (mathRandom g).2
          (mathRandom_valid hg)
        have hg2 : (activate sp (pickColor palette (mathRandom g).1) mj (mathRandom g).2).2.Valid :=
          hg.of_draws (by rw [activate_draws]; rfl)
        generalize activate sp (pickColor palette (mathRandom g).1) mj (mathRandom g).2 = r
          at hok hg2
        apply ih (meshes.set j r.1) r.2 hg2
        intro m hm
        rcases List.mem_or_eq_of_mem_set hm with h1 | h1
        · exact h m h1
        · rw [h1]; exact hok

theorem createMesh_draws (box : ℚ × ℚ) (g : Rng) : (createMesh box g).2.draws = g.draws := by
  unfold createMesh
  simp only [resetMesh_draws]
  rfl

theorem createMeshes_slotOk (box : Nat → ℚ × ℚ) :
    ∀ (n start : Nat) (g : Rng), g.Valid → ∀ m ∈ (createMeshes box n start g).1, SlotOk m := by
  intro n
  induction n with
  | zero => intro start g _ m hm; simp [createMeshes] at hm
  | succ n ih =>
    intro start g hg m hm
    unfold createMeshes at hm
    simp only [List.mem_cons] at hm
    rcases hm with h | h
    · rw [h]
      unfold createMesh
      exact resetMesh_slotOk _ _ ((mathRandom_valid (mathRandom_valid hg)))
    · exact ih (start + 1) (createMesh (box start) g).2
        (hg.of_draws (createMesh_draws _ _)) m h

theorem mem_modify {f : Mesh → Mesh} {i : Nat} {l : List Mesh} {m : Mesh}
    (h : m ∈ l.modify f i) : m ∈ l ∨ ∃ m0 ∈ l, m = f m0 := by
  obtain ⟨k, hk⟩ := List.mem_iff_getElem?.1 h
  rw [List.getElem?_modify] at hk
  cases hl : l[k]? with
  | none => rw [hl] at hk; simp at hk
  | some a =>
    rw [hl] at hk
    have ha : a ∈ l := List.mem_iff_getElem?.2 ⟨k, hl⟩
    simp only [Option.map_eq_map, Option.map_some', Option.some.injEq] at hk
    by_cases hik : i = k
    · simp only [hik, if_true] at hk
      exact Or.inr ⟨a, ha, hk.symm⟩
    · simp only [hik, if_false] at hk
      exact Or.inl (hk ▸ ha)

theorem reachable_slotOk {p : Pool} (hp : Reachable p) : ∀ m ∈ p.meshes, SlotOk m := by
  induction hp with
  | create n box cameraY g hg => exact createMeshes_slotOk box n 0 g hg
  | emit p sp palette g hg _ ih => exact emitLoop_slotOk sp palette meshesPerEmit p.meshes g hg ih
  | update p dt w h gs _ ih =>
    intro m hm
    simp only [update, List.mem_map] at hm
    obtain ⟨m0, hm0, rfl⟩ := hm
    exact (updateMesh_quiet _ _ _ _ m0).slotOk (ih m0 hm0)
  | tick p easeFn dt i _ ih =>
    intro m hm
    rcases mem_modify hm with h | ⟨m0, hm0, rfl⟩
    · exact ih m h
    · exact (tickMesh_quiet easeFn dt m0).slotOk (ih m0 hm0)
  | complete p i _ ih =>
    intro m hm
    rcases mem_modify hm with h | ⟨m0, hm0, rfl⟩
    · exact ih m h
    · exact (onComplete_quiet _ m0).slotOk (ih m0 hm0)

/-! ## Evaluation at the concrete states -/

theorem quarterRng_valid : quarterRng.Valid := by
  intro k
  simp only [quarterRng]
  norm_num

theorem pickColor_quarter : pickColor ["red", "blue"] (1/4) = some "red" := by
  have h : ⌊(1/4 : ℚ) * ((["red", "blue"] : List String).length : ℚ)⌋ = 0 := by
    rw [Int.floor_eq_iff]
    norm_num
  simp only [pickColor, h]
  rfl

theorem activate_sample (k : Nat) :
    (activate ⟨1, 2⟩ (some "red") (sampleMesh false) { draws := fun _ => 1/4, pos := k }).1
      = emittedMesh := by
  unfold activate
  simp only [animateInMesh_fields, resetMesh_fields, resetMesh_draws]
  simp only [sampleMesh, emittedMesh, INITIAL_Y]
  norm_num

theorem emit_sample_meshes :
    (emit ⟨1, 2⟩ ["red", "blue"] samplePool.meshes quarterRng).meshes = emittedPool.meshes := by
  have hf : findFreeMesh [sampleMesh false, sampleMesh false, sampleMesh false] = some 0 := by
    decide
  have hf2 : findFreeMesh [emittedMesh, sampleMesh false, sampleMesh false] = some 1 := by
    decide
  simp only [emit, meshesPerEmit, emitLoop, hf, mathRandom, quarterRng, pickColor_quarter,
    List.getElem?_cons_zero, activate_sample, List.set_cons_zero, hf2, List.getElem?_cons_succ,
    List.set_cons_succ, samplePool, emittedPool, activate_draws]

theorem createMesh_sample (k : Nat) :
    (createMesh (0, 1) { draws := fun _ => 1/4, pos := k }).1 = sampleMesh false := by
  have h : ⌊(1/4 : ℚ) * ((materials.length : ℕ) : ℚ)⌋ = 0 := by
    rw [Int.floor_eq_iff]
    simp only [materials, List.length_cons, List.length_nil]
    norm_num
  unfold createMesh
  simp only [mathRandom, resetMesh_fields, h]
  simp only [freshMesh, sampleMesh, INITIAL_Y, materials]
  norm_num

theorem createMesh_rng_sample (k : Nat) :
    ∃ k1, (createMesh (0, 1) { draws := fun _ => 1/4, pos := k }).2
      = { draws := fun _ => 1/4, pos := k1 } := by
  refine ⟨(createMesh (0, 1) { draws := fun _ => 1/4, pos := k }).2.pos, ?_⟩
  have h := createMesh_draws (0, 1) { draws := fun _ => 1/4, pos := k }
  cases hr : (createMesh (0, 1) { draws := fun _ => 1/4, pos := k }).2 with
  | mk d p =>
    rw [hr] at h
    simp only at h
    rw [h]

theorem createPool_sample : createPool 3 (fun _ => (0, 1)) 0 quarterRng = samplePool := by
  obtain ⟨k1, h1⟩ := createMesh_rng_sample 0
  obtain ⟨k2, h2⟩ := createMesh_rng_sample k1
  simp only [createPool, createMeshes, quarterRng, createMesh_sample, h1, h2, samplePool]

theorem reachable_samplePool : Reachable samplePool := by
  rw [← createPool_sample]
  exact Reachable.create 3 (fun _ => (0, 1)) 0 quarterRng quarterRng_valid

theorem reachable_emittedPool : Reachable emittedPool := by
  have h := Reachable.emit samplePool ⟨1, 2⟩ ["red", "blue"] quarterRng quarterRng_valid
    reachable_samplePool
  rw [emit_sample_meshes] at h
  exact h

/-! ## Per-frame update: lemmas -/

theorem updateMesh_of_inactive (dt gs time cameraY : ℚ) (m : Mesh) (h : m.active = false) :
    updateMesh dt gs time cameraY m = m := by
  simp [updateMesh, h]

theorem updateMesh_of_active (dt gs time cameraY : ℚ) (m : Mesh) (h : m.active = true) :
    updateMesh dt gs time cameraY m =
      if m.positionY + dt / 1000 * m.speed * gs > maxY cameraY m ∨
          m.positionY + dt / 1000 * m.speed * gs < minY m then
        { m with
          uniforms := { m.uniforms with screenOffset := m.screenOffset, iGlobalTime := time }
          positionY := m.positionY + dt / 1000 * m.speed * gs
          rotationY := m.rotationY + dt / 1000 * m.rotationFactor
          active := false
          visible := false }
      else
        { m with
          uniforms := { m.uniforms with screenOffset := m.screenOffset, iGlobalTime := time }
          positionY := m.positionY + dt / 1000 * m.speed * gs
          rotationY := m.rotationY + dt / 1000 * m.rotationFactor } := by
  simp only [updateMesh, h, Bool.not_true, Bool.false_eq_true, if_false, true_and, minY, maxY,
    meshHeight]

theorem updateMesh_bounds (dt gs time cameraY : ℚ) (m : Mesh) :
    minY (updateMesh dt gs time cameraY m) = minY m ∧
      maxY cameraY (updateMesh dt gs time cameraY m) = maxY cameraY m := by
  by_cases h : m.active = true
  · rw [updateMesh_of_active _ _ _ _ _ h]
    split_ifs <;> exact ⟨rfl, rfl⟩
  · rw [updateMesh_of_inactive _ _ _ _ _ (by simpa using h)]
    exact ⟨rfl, rfl⟩

theorem updateMesh_positionY (dt gs time cameraY : ℚ) (m : Mesh) (h : m.active = true) :
    (updateMesh dt gs time cameraY m).positionY = m.positionY + dt / 1000 * m.speed * gs := by
  rw [updateMesh_of_active _ _ _ _ _ h]
  split_ifs <;> rfl

theorem updateMesh_culled (dt gs time cameraY : ℚ) (m : Mesh) (h : m.active = true)
    (hout : m.positionY + dt / 1000 * m.speed * gs > maxY cameraY m ∨
      m.positionY + dt / 1000 * m.speed * gs < minY m) :
    (updateMesh dt gs time cameraY m).active = false ∧
      (updateMesh dt gs time cameraY m).visible = false := by
  rw [updateMesh_of_active _ _ _ _ _ h, if_pos hout]
  exact ⟨rfl, rfl⟩

theorem updateMesh_active_after (dt gs time cameraY : ℚ) (m : Mesh)
    (h : (updateMesh dt gs time cameraY m).active = true) :
    m.active = true ∧
      ¬ (m.positionY + dt / 1000 * m.speed * gs > maxY cameraY m ∨
        m.positionY + dt / 1000 * m.speed * gs < minY m) := by
  by_cases ha : m.active = true
  · refine ⟨ha, fun hout => ?_⟩
    rw [(updateMesh_culled dt gs time cameraY m ha hout).1] at h
    cases h
  · rw [updateMesh_of_inactive _ _ _ _ _ (by simpa using ha)] at h
    exact absurd h ha

theorem update_getElem? (dt width height : ℚ) (globalSpeed : Option ℚ) (p : Pool) (i : Nat)
    (m : Mesh) (hm : p.meshes[i]? = some m) :
    (update dt width height globalSpeed p).meshes[i]? =
      some (updateMesh dt (globalSpeed.getD 1) (p.time + dt / 1000) p.cameraY m) := by
  simp [update, List.getElem?_map, hm]

/-! ## Timeline progress: lemmas -/

theorem tickTimeline_append (easeFn : Ease → ℚ → ℚ) (dt : ℚ) (l1 l2 : List Tween) :
    ∀ m : Mesh, tickTimeline easeFn dt (l1 ++ l2) m =
      ((tickTimeline easeFn dt l2 (tickTimeline easeFn dt l1 m).1).1,
        (tickTimeline easeFn dt l1 m).2 ++
          (tickTimeline easeFn dt l2 (tickTimeline easeFn dt l1 m).1).2) := by
  induction l1 with
  | nil => intro m; simp [tickTimeline]
  | cons tw rest ih =>
    intro m
    simp only [List.cons_append, tickTimeline, ih]
    cases (tickTween easeFn dt tw m).2 <;> simp [ih]

theorem tickTween_scaleIn (easeFn : Ease → ℚ → ℚ) (dt : ℚ) (tw : Tween) (m : Mesh)
    (hk : tw.kind = TweenKind.scaleIn) :
    (∃ s, (tickTween easeFn dt tw m).1 = { m with scale := s }) ∧
      ∀ t ∈ (tickTween easeFn dt tw m).2, t.kind = TweenKind.scaleIn := by
  unfold tickTween
  simp only [hk, applyTween, onComplete]
  split_ifs
  · exact ⟨⟨_, rfl⟩, by simp⟩
  · exact ⟨⟨_, rfl⟩, by simp⟩
  · exact ⟨⟨_, rfl⟩, by simp [hk]⟩
  · exact ⟨⟨m.scale, rfl⟩, by simp [hk]⟩

theorem tickTimeline_scaleIn (easeFn : Ease → ℚ → ℚ) (dt : ℚ) (pre : List Tween)
    (hpre : ∀ tw ∈ pre, tw.kind = TweenKind.scaleIn) :
    ∀ m : Mesh, (∃ s, (tickTimeline easeFn dt pre m).1 = { m with scale := s }) ∧
      ∀ t ∈ (tickTimeline easeFn dt pre m).2, t.kind = TweenKind.scaleIn := by
  induction pre with
  | nil => intro m; exact ⟨⟨m.scale, rfl⟩, by simp [tickTimeline]⟩
  | cons tw rest ih =>
    intro m
    obtain ⟨⟨s1, hs1⟩, hk1⟩ := tickTween_scaleIn easeFn dt tw m (hpre tw (List.mem_cons_self _ _))
    obtain ⟨⟨s2, hs2⟩, hk2⟩ := ih (fun t ht => hpre t (List.mem_cons_of_mem _ ht))
      (tickTween easeFn dt tw m).1
    simp only [tickTimeline]
    refine ⟨⟨s2, by rw [hs2, hs1]⟩, ?_⟩
    intro t ht
    cases h : (tickTween easeFn dt tw m).2 with
    | none => rw [h] at ht; exact hk2 t ht
    | some t1 =>
      rw [h] at ht
      rcases List.mem_cons.1 ht with h2 | h2
      · exact hk1 t (by rw [h, h2]; simp)
      · exact hk2 t h2

theorem clamp01_of_one_le {a : ℚ} (h : 1 ≤ a) : clamp01 a = 1 := by
  unfold clamp01
  split_ifs <;> linarith

theorem clamp01_mem (a : ℚ) : 0 ≤ clamp01 a ∧ clamp01 a ≤ 1 := by
  unfold clamp01
  split_ifs <;> constructor <;> linarith

theorem clamp01_mono {a b : ℚ} (h : a ≤ b) : clamp01 a ≤ clamp01 b := by
  unfold clamp01
  split_ifs <;> linarith

theorem fadeValue_before (easeFn : Ease → ℚ → ℚ) (delay duration t : ℚ) (h : t ≤ delay) :
    fadeValue easeFn delay duration t = 1 := by
  unfold fadeValue
  rw [if_neg (by linarith)]

theorem tickTween_fade (easeFn : Ease → ℚ → ℚ)
    (dt duration delay t : ℚ) (hdur : 0 < duration) (hdt : 0 ≤ dt) (m : Mesh)
    (hanim : m.uniforms.animate = fadeValue easeFn delay duration t) :
    (t + dt < delay + duration →
      (tickTween easeFn dt (fadeTween duration delay t) m).2
          = some (fadeTween duration delay (t + dt)) ∧
        (tickTween easeFn dt (fadeTween duration delay t) m).1.active = m.active ∧
        (tickTween easeFn dt (fadeTween duration delay t) m).1.visible = m.visible ∧
        (tickTween easeFn dt (fadeTween duration delay t) m).1.uniforms.animate
          = fadeValue easeFn delay duration (t + dt)) ∧
    (delay + duration ≤ t + dt →
      (tickTween easeFn dt (fadeTween duration delay t) m).2 = none ∧
        (tickTween easeFn dt (fadeTween duration delay t) m).1.active = false ∧
        (tickTween easeFn dt (fadeTween duration delay t) m).1.visible = false ∧
        (tickTween easeFn dt (fadeTween duration delay t) m).1.uniforms.animate
          = 1 + (0 - 1) * easeFn Ease.quadOut 1) := by
  constructor
  · intro hlt
    have hnc : ¬ (t + dt ≥ duration + delay) := by
      intro hc
      linarith
    unfold tickTween
    simp only [fadeTween, if_neg hnc, applyTween]
    by_cases hs : t + dt - delay > 0
    · simp only [if_pos hs]
      refine ⟨trivial, trivial, trivial, ?_⟩
      simp only [fadeValue, if_pos hs]
    · simp only [if_neg hs]
      refine ⟨trivial, trivial, trivial, ?_⟩
      rw [hanim, fadeValue_before easeFn delay duration t (by linarith),
        fadeValue_before easeFn delay duration (t + dt) (by linarith)]
  · intro hge
    have hc : t + dt ≥ duration + delay := by linarith
    have hs : t + dt - delay > 0 := by linarith
    have hclamp : clamp01 ((t + dt - delay) / duration) = 1 := by
      apply clamp01_of_one_le
      rw [le_div_iff₀ hdur]
      linarith
    unfold tickTween
    simp only [fadeTween, if_pos hc, if_pos hs, applyTween, onComplete, hclamp]
    exact ⟨trivial, trivial, trivial, trivial⟩

theorem tickMesh_fading (easeFn : Ease → ℚ → ℚ)
    (dt duration delay t : ℚ) (hdur : 0 < duration) (hdt : 0 ≤ dt) (m : Mesh)
    (hm : Fading easeFn duration delay t m) :
    Fading easeFn duration delay (t + dt) (tickMesh easeFn dt m) := by
  obtain ⟨pre, hpre, hcase⟩ := hm
  obtain ⟨⟨s, hs⟩, hkind⟩ := tickTimeline_scaleIn easeFn dt pre hpre m
  refine ⟨(tickTimeline easeFn dt pre m).2, hkind, ?_⟩
  rcases hcase with ⟨hlt, htl, hact, hvis, hanim⟩ | ⟨hge, htl, hact, hvis, hanim⟩
  · have hanim1 : (tickTimeline easeFn dt pre m).1.uniforms.animate
        = fadeValue easeFn delay duration t := by rw [hs]; exact hanim
    obtain ⟨hA, hB⟩ := tickTween_fade easeFn dt duration delay t hdur hdt
      (tickTimeline easeFn dt pre m).1 hanim1
    have hact1 : (tickTimeline easeFn dt pre m).1.active = true := by rw [hs]; exact hact
    have hvis1 : (tickTimeline easeFn dt pre m).1.visible = true := by rw [hs]; exact hvis
    unfold tickMesh
    simp only [htl, tickTimeline_append, tickTimeline]
    rcases lt_or_le (t + dt) (delay + duration) with h | h
    · obtain ⟨e2, ea, ev, en⟩ := hA h
      left
      refine ⟨h, ?_, ea.trans hact1, ev.trans hvis1, en⟩
      simp only [e2]
    · obtain ⟨e2, ea, ev, en⟩ := hB h
      right
      refine ⟨h, ?_, ea, ev, en⟩
      simp only [e2, List.append_nil]
  · right
    unfold tickMesh
    simp only [htl]
    refine ⟨by linarith, trivial, ?_, ?_, ?_⟩
    · rw [hs]; exact hact
    · rw [hs]; exact hvis
    · rw [hs]; exact hanim

theorem runTicks_fading (easeFn : Ease → ℚ → ℚ)
    (duration delay : ℚ) (hdur : 0 < duration) (dts : List ℚ) :
    ∀ (t : ℚ) (m : Mesh), (∀ dt ∈ dts, 0 ≤ dt) → Fading easeFn duration delay t m →
      Fading easeFn duration delay (t + dts.sum) (runTicks easeFn dts m) := by
  induction dts with
  | nil => intro t m _ hm; simpa [runTicks] using hm
  | cons dt rest ih =>
    intro t m hnn hm
    have hstep := tickMesh_fading easeFn dt duration delay t hdur
      (hnn dt (List.mem_cons_self _ _)) m hm
    have := ih (t + dt) (tickMesh easeFn dt m) (fun d hd => hnn d (List.mem_cons_of_mem _ hd))
      hstep
    simpa [runTicks, List.sum_cons, add_assoc] using this

theorem animateInMesh_fading (easeFn : Ease → ℚ → ℚ) (mesh : Mesh) (g : Rng) (hg : g.Valid) :
    ∃ duration delay : ℚ, 1/2 ≤ duration ∧ 1/2 ≤ delay ∧
      fadeTween duration delay 0 ∈ (animateInMesh mesh g).1.timeline ∧
      Fading easeFn duration delay 0 (animateInMesh mesh g).1 := by
  have hd1 := hg g.pos
  have hd2 := hg (g.pos + 1)
  have hd3 := hg (g.pos + 2)
  refine ⟨g.draws (g.pos + 1) * (1 - 1/2) + 1/2,
    g.draws g.pos * (1 - 1/2) + 1/2 + (g.draws (g.pos + 2) * (1 - 0) + 0), by linarith [hd2.1],
    by linarith [hd1.1, hd3.1], ?_, ?_⟩
  · rw [animateInMesh_fields]
    simp [fadeTween]
  · refine ⟨[scaleTween (g.draws g.pos * (1 - 1/2) + 1/2) 0], ?_,
      Or.inl ⟨by linarith [hd1.1, hd2.1, hd3.1], ?_, ?_, ?_, ?_⟩⟩
    · intro tw htw
      rw [List.mem_singleton.1 htw]
      rfl
    · rw [animateInMesh_fields]; rfl
    · rw [animateInMesh_fields]
    · rw [animateInMesh_fields]
    · rw [animateInMesh_fields, fadeValue_before _ _ _ _ (by linarith [hd1.1, hd3.1])]

theorem fadeValue_antitone (easeFn : Ease → ℚ → ℚ)
    (hmono : ∀ a b : ℚ, 0 ≤ a → a ≤ b → b ≤ 1 → easeFn Ease.quadOut a ≤ easeFn Ease.quadOut b)
    (h0 : easeFn Ease.quadOut 0 = 0) (delay duration : ℚ) (hdur : 0 < duration) {t t1 : ℚ}
    (h : t ≤ t1) :
    fadeValue easeFn delay duration t1 ≤ fadeValue easeFn delay duration t := by
  unfold fadeValue
  have hc := clamp01_mem ((t - delay) / duration)
  have hc1 := clamp01_mem ((t1 - delay) / duration)
  split_ifs with ha hb hb
  · have hle : clamp01 ((t - delay) / duration) ≤ clamp01 ((t1 - delay) / duration) :=
      clamp01_mono ((div_le_div_iff_of_pos_right hdur).2 (by linarith))
    have := hmono _ _ hc.1 hle hc1.2
    linarith
  · have := hmono 0 _ (le_refl 0) hc1.1 hc1.2
    rw [h0] at this
    linarith
  · linarith
  · exact le_refl 1

theorem fadeValue_nonneg (easeFn : Ease → ℚ → ℚ)
    (hmono : ∀ a b : ℚ, 0 ≤ a → a ≤ b → b ≤ 1 → easeFn Ease.quadOut a ≤ easeFn Ease.quadOut b)
    (h1 : easeFn Ease.quadOut 1 = 1) (delay duration t : ℚ) :
    0 ≤ fadeValue easeFn delay duration t := by
  unfold fadeValue
  have hc := clamp01_mem ((t - delay) / duration)
  split_ifs
  · have := hmono _ 1 hc.1 hc.2 (le_refl 1)
    rw [h1] at this
    linarith
  · norm_num

theorem Fading.animate_le (easeFn : Ease → ℚ → ℚ)
    (hmono : ∀ a b : ℚ, 0 ≤ a → a ≤ b → b ≤ 1 → easeFn Ease.quadOut a ≤ easeFn Ease.quadOut b)
    (h0 : easeFn Ease.quadOut 0 = 0) (h1 : easeFn Ease.quadOut 1 = 1) (duration delay : ℚ)
    (hdur : 0 < duration) {t t1 : ℚ} {m m1 : Mesh} (hm : Fading easeFn duration delay t m)
    (hm1 : Fading easeFn duration delay t1 m1) (h : t ≤ t1) :
    m1.uniforms.animate ≤ m.uniforms.animate := by
  obtain ⟨_, _, hcase⟩ := hm
  obtain ⟨_, _, hcase1⟩ := hm1
  rcases hcase with ⟨_, _, _, _, ha⟩ | ⟨hge, _, _, _, ha⟩
  · rcases hcase1 with ⟨_, _, _, _, ha1⟩ | ⟨_, _, _, _, ha1⟩
    · rw [ha, ha1]
      exact fadeValue_antitone easeFn hmono h0 delay duration hdur h
    · rw [ha, ha1, h1]
      have := fadeValue_nonneg easeFn hmono h1 delay duration t
      linarith
  · rcases hcase1 with ⟨hlt, _, _, _, _⟩ | ⟨_, _, _, _, ha1⟩
    · linarith
    · rw [ha, ha1]

theorem sampleEase_mono (a b : ℚ) (_ha : 0 ≤ a) (hab : a ≤ b) (hb : b ≤ 1) :
    sampleEase Ease.quadOut a ≤ sampleEase Ease.quadOut b := by
  simp only [sampleEase]
  nlinarith [mul_nonneg (sub_nonneg.2 hab) (by linarith : (0 : ℚ) ≤ 2 - a - b)]

theorem agedMesh_eq : runTicks sampleEase [7/5] emittedMesh = agedMesh := by
  have hc1 : clamp01 (((0 : ℚ) + 7/5 - 0) / (5/8)) = 1 := clamp01_of_one_le (by norm_num)
  have hc2 : clamp01 (((0 : ℚ) + 7/5 - 7/8) / (5/8)) = 21/25 := by
    unfold clamp01
    norm_num
  simp only [runTicks, List.foldl, tickMesh, emittedMesh, tickTimeline, tickTween, applyTween,
    onComplete, hc1, hc2, sampleEase, agedMesh, fadeTween]
  norm_num

theorem agedMesh_old_completion : (runTicks sampleEase [1/2] agedMesh).active = false := by
  have hc : clamp01 (((7/5 : ℚ) + 1/2 - 7/8) / (5/8)) = 1 := clamp01_of_one_le (by norm_num)
  simp only [runTicks, List.foldl, tickMesh, agedMesh, tickTimeline, tickTween, applyTween,
    onComplete, hc, sampleEase, fadeTween]
  norm_num

/-! ## Emission and the number of free slots -/

theorem freeCount_set (meshes : List Mesh) :
    ∀ (i : Nat) (m a : Mesh), meshes[i]? = some m → m.active = false → a.active = true →
      freeCount (meshes.set i a) + 1 = freeCount meshes := by
  induction meshes with
  | nil => intro i m a hm; simp at hm
  | cons b rest ih =>
    intro i m a hm hfree hact
    cases i with
    | zero =>
      simp only [List.getElem?_cons_zero, Option.some.injEq] at hm
      subst hm
      simp [freeCount, List.countP_cons, hfree, hact]
    | succ i =>
      simp only [List.getElem?_cons_succ] at hm
      have := ih i m a hm hfree hact
      simp only [freeCount, List.set_cons_succ, List.countP_cons] at this ⊢
      omega

theorem freeCount_eq_zero (meshes : List Mesh) :
    freeCount meshes = 0 ↔ ∀ m ∈ meshes, m.active = true := by
  simp [freeCount, List.countP_eq_zero]

theorem activate_active (sp : Vec2) (color : Option String) (mesh : Mesh) (g : Rng) :
    (activate sp color mesh g).1.active = true := by
  unfold activate
  simp only [animateInMesh_fields]

theorem emitLoop_completion (sp : Vec2) (palette : List String) :
    ∀ (k : Nat) (meshes : List Mesh) (g : Rng),
      ((emitLoop sp palette k meshes g).completion = Completion.normal ↔ k ≤ freeCount meshes) ∧
        freeCount (emitLoop sp palette k meshes g).meshes = freeCount meshes - k := by
  intro k
  induction k with
  | zero => intro meshes g; simp [emitLoop]
  | succ k ih =>
    intro meshes g
    unfold emitLoop
    simp only
    cases hf : findFreeMesh meshes with
    | none =>
      have h0 : freeCount meshes = 0 :=
        (freeCount_eq_zero meshes).2 ((findFreeMesh_none meshes).1 hf)
      simp [h0]
    | some j =>
      obtain ⟨⟨mj, hmj, hmja⟩, _⟩ := findFreeMesh_some meshes j hf
      simp only [hmj]
      have hact := activate_active sp (pickColor palette (mathRandom g).1) mj (mathRandom g).2
      generalize activate sp (pickColor palette (mathRandom g).1) mj (mathRandom g).2 = r at hact
      have hcount := freeCount_set meshes j mj r.1 hmj hmja hact
      obtain ⟨h1, h2⟩ := ih (meshes.set j r.1) r.2
      constructor
      · rw [h1]; omega
      · rw [h2]; omega

theorem emit_completion_iff (sp : Vec2) (palette : List String) (meshes : List Mesh) (g : Rng) :
    ((emit sp palette meshes g).completion = Completion.normal ↔
        meshesPerEmit ≤ freeCount meshes) ∧
      freeCount (emit sp palette meshes g).meshes = freeCount meshes - meshesPerEmit :=
  emitLoop_completion sp palette meshesPerEmit meshes g

/-! ## Frame of emission and update -/

theorem emitLoop_active_unchanged (sp : Vec2) (palette : List String) :
    ∀ (k : Nat) (meshes : List Mesh) (g : Rng) (i : Nat) (m : Mesh),
      meshes[i]? = some m → m.active = true →
        (emitLoop sp palette k meshes g).meshes[i]? = some m := by
  intro k
  induction k with
  | zero => intro meshes g i m hm _; simpa [emitLoop] using hm
  | succ k ih =>
    intro meshes g i m hm hact
    unfold emitLoop
    simp only
    cases hf : findFreeMesh meshes with
    | none => simpa using hm
    | some j =>
      obtain ⟨⟨mj, hmj, hmja⟩, _⟩ := findFreeMesh_some meshes j hf
      simp only [hmj]
      have hij : j ≠ i := by
        intro h
        rw [h, hm] at hmj
        rw [← Option.some.inj hmj, hact] at hmja
        cases hmja
      generalize activate sp (pickColor palette (mathRandom g).1) mj (mathRandom g).2 = r
      exact ih (meshes.set j r.1) r.2 i m (by rw [List.getElem?_set_ne hij]; exact hm) hact

theorem emitLoop_length (sp : Vec2) (palette : List String) :
    ∀ (k : Nat) (meshes : List Mesh) (g : Rng),
      (emitLoop sp palette k meshes g).meshes.length = meshes.length := by
  intro k
  induction k with
  | zero => intro meshes g; simp [emitLoop]
  | succ k ih =>
    intro meshes g
    unfold emitLoop
    simp only
    cases hf : findFreeMesh meshes with
    | none => simp
    | some j =>
      simp only
      cases hj : meshes[j]? with
      | none => simp
      | some mj =>
        simp only
        generalize activate sp (pickColor palette (mathRandom g).1) mj (mathRandom g).2 = r
        rw [ih (meshes.set j r.1) r.2, List.length_set]

theorem updateMesh_active_le (dt gs time cameraY : ℚ) (m : Mesh)
    (h : (updateMesh dt gs time cameraY m).active = true) : m.active = true :=
  (updateMesh_active_after dt gs time cameraY m h).1

theorem updateMesh_timeline (dt gs time cameraY : ℚ) (m : Mesh) :
    (updateMesh dt gs time cameraY m).timeline = m.timeline := by
  by_cases h : m.active = true
  · rw [updateMesh_of_active _ _ _ _ _ h]
    split_ifs <;> rfl
  · rw [updateMesh_of_inactive _ _ _ _ _ (by simpa using h)]

theorem onComplete_of_inactive (kind : TweenKind) (m : Mesh) (ha : m.active = false)
    (hv : m.visible = false) : onComplete kind m = m := by
  cases kind
  · rfl
  · cases m
    simp only [onComplete] at *
    subst ha
    subst hv
    rfl

/-! ## Colour selection -/

theorem pickColor_index_lt (palette : List String) (u : ℚ) (h0 : 0 ≤ u) (h1 : u < 1)
    (hpal : palette ≠ []) :
    0 ≤ ⌊u * (palette.length : ℚ)⌋ ∧ ⌊u * (palette.length : ℚ)⌋.toNat < palette.length := by
  have hlen : 0 < palette.length := List.length_pos.2 hpal
  have hn : (0 : ℚ) < (palette.length : ℚ) := by exact_mod_cast hlen
  have hlo : (0 : ℤ) ≤ ⌊u * (palette.length : ℚ)⌋ := Int.floor_nonneg.2 (mul_nonneg h0 hn.le)
  have hhi : ⌊u * (palette.length : ℚ)⌋ < (palette.length : ℤ) := by
    rw [Int.floor_lt]
    have : u * (palette.length : ℚ) < 1 * (palette.length : ℚ) :=
      mul_lt_mul_of_pos_right h1 hn
    simpa using this
  exact ⟨hlo, by omega⟩

theorem pickColor_onto (palette : List String) (i : Nat) (hi : i < palette.length) :
    0 ≤ (i : ℚ) / (palette.length : ℚ) ∧ (i : ℚ) / (palette.length : ℚ) < 1 ∧
      pickColor palette ((i : ℚ) / (palette.length : ℚ)) = some palette[i] := by
  have hn : (0 : ℚ) < (palette.length : ℚ) := by
    exact_mod_cast (Nat.lt_of_le_of_lt (Nat.zero_le i) hi)
  have hfloor : ⌊(i : ℚ) / (palette.length : ℚ) * (palette.length : ℚ)⌋ = (i : ℤ) := by
    rw [div_mul_cancel₀ _ (ne_of_gt hn)]
    exact Int.floor_natCast i
  refine ⟨div_nonneg (Nat.cast_nonneg i) hn.le, ?_, ?_⟩
  · rw [div_lt_one hn]
    exact_mod_cast hi
  · simp only [pickColor, hfloor, Int.toNat_ofNat]
    exact List.getElem?_eq_getElem hi

theorem pickColor_threeQuarter : pickColor ["red", "blue"] (3/4) = some "blue" := by
  have h : ⌊(3/4 : ℚ) * ((["red", "blue"] : List String).length : ℚ)⌋ = 1 := by
    rw [Int.floor_eq_iff]
    norm_num
  simp only [pickColor, h]
  rfl

theorem updateMesh_rotationY (dt gs time cameraY : ℚ) (m : Mesh) (h : m.active = true) :
    (updateMesh dt gs time cameraY m).rotationY = m.rotationY + dt / 1000 * m.rotationFactor := by
  rw [updateMesh_of_active _ _ _ _ _ h]
  split_ifs <;> rfl

/-! ## Geometry cache: lemmas -/

theorem geometryOptions_type (g : Rng) :
    (geometryOptions g).1.type = 0 ∨ (geometryOptions g).1.type = 1 := by
  unfold geometryOptions
  simp only
  split_ifs
  · exact Or.inl rfl
  · exact Or.inr rfl

theorem createGeometry_eq_cacheEntry (gens : Generators) (opt : GeometryOptions) (g : Rng) :
    (createGeometry gens opt g).1 = cacheEntry (opt, generatedComplex gens opt g) := by
  unfold createGeometry generatedComplex cacheEntry createGeom
  by_cases h0 : opt.type = 0
  · simp only [h0, if_true]
  · by_cases h1 : opt.type = 1
    · simp only [h1, if_true]
      rfl
    · simp only [h0, h1, if_false]

theorem createGeometries_eq_map (gens : Generators) :
    ∀ (n : Nat) (g : Rng),
      (createGeometries gens n g).1 = (invocations gens n g).map cacheEntry := by
  intro n
  induction n with
  | zero => intro g; rfl
  | succ n ih =>
    intro g
    simp only [createGeometries, invocations, List.map_cons, ih,
      createGeometry_eq_cacheEntry]

theorem invocations_length (gens : Generators) :
    ∀ (n : Nat) (g : Rng), (invocations gens n g).length = n := by
  intro n
  induction n with
  | zero => intro g; rfl
  | succ n ih => intro g; simp only [invocations, List.length_cons, ih]

theorem invocations_dispatch (gens : Generators) :
    ∀ (n : Nat) (g : Rng), ∀ inv ∈ invocations gens n g,
      (inv.1.type = 0 ∨ inv.1.type = 1) ∧ ∃ complex, inv.2 = some complex := by
  intro n
  induction n with
  | zero => intro g inv h; simp [invocations] at h
  | succ n ih =>
    intro g inv h
    simp only [invocations, List.mem_cons] at h
    rcases h with h | h
    · rw [h]
      have ht := geometryOptions_type g
      refine ⟨ht, ?_⟩
      simp only [generatedComplex]
      rcases ht with h0 | h1
      · exact ⟨_, by rw [if_pos h0]⟩
      · rw [if_neg (by rw [h1]; decide), if_pos h1]
        exact ⟨_, rfl⟩
    · exact ih _ inv h

/-! ## Claims -/

/-- C1 (behaviour of the code): when every slot is active, `emit` draws the
colour, gets `null` from `findFreeMesh` and throws a `TypeError` on
`mesh.screenOffset` in its first iteration; no slot is changed. The call does
not return normally. -/
theorem emit_exhausted_throws (screenPosition : Vec2) (palette : List String)
    (meshes : List Mesh) (g : Rng) (hall : ∀ m ∈ meshes, m.active = true) :
    (emit screenPosition palette meshes g).completion = Completion.typeError ∧
      (emit screenPosition palette meshes g).meshes = meshes := by
  have hnone : findFreeMesh meshes = none := (findFreeMesh_none meshes).2 hall
  simp [emit, meshesPerEmit, emitLoop, hnone]

/-- Witness of C1: a pool of three active slots and the palette `["red"]`. -/
theorem emit_exhausted_throws_witness :
    (emit ⟨1, 2⟩ ["red"] [sampleMesh true, sampleMesh true, sampleMesh true]
        quarterRng).completion = Completion.typeError ∧
      (emit ⟨1, 2⟩ ["red"] [sampleMesh true, sampleMesh true, sampleMesh true]
        quarterRng).meshes = [sampleMesh true, sampleMesh true, sampleMesh true] :=
  emit_exhausted_throws ⟨1, 2⟩ ["red"] [sampleMesh true, sampleMesh true, sampleMesh true]
    quarterRng (by decide)

/-- C2 (behaviour of the code at the scenario of the claim): in a pool of three
free slots with `meshesPerEmit = 2`, the first `emit` returns with slots 0 and
1 active; the second activates slot 2 in its first iteration and throws a
`TypeError` in its second; the third throws in its first iteration and leaves
the three slots active. -/
theorem emit_three_slot_scenario :
    meshesPerEmit = 2 ∧
      scenarioFirst.completion = Completion.normal ∧
      scenarioFirst.meshes.map (fun m => m.active) = [true, true, false] ∧
      scenarioSecond.completion = Completion.typeError ∧
      scenarioSecond.meshes.map (fun m => m.active) = [true, true, true] ∧
      scenarioThird.completion = Completion.typeError ∧
      scenarioThird.meshes.map (fun m => m.active) = [true, true, true] := by
  decide

/-- C3: when a slot is reactivated through `resetMesh` followed by
`animateInMesh`, the old schedule is emptied by the reset, before the new
tweens are scheduled; the reactivated slot does not depend on what the old
schedule held; its schedule is the two new tweens, not yet started; and under
timeline ticks alone the slot stays active and visible for as long as its own
new fade-out has not completed, whatever the completion time of the old
schedule was. -/
theorem reactivation_cancels_old_schedule (easeFn : Ease → ℚ → ℚ) (mesh : Mesh) (g : Rng)
    (hg : g.Valid) :
    (resetMesh mesh g).1.timeline = [] ∧
    (∀ old : List Tween,
      (animateInMesh (resetMesh { mesh with timeline := old } g).1
          (resetMesh { mesh with timeline := old } g).2).1
        = (animateInMesh (resetMesh mesh g).1 (resetMesh mesh g).2).1) ∧
    (animateInMesh (resetMesh mesh g).1 (resetMesh mesh g).2).1.timeline.length = 2 ∧
    (∀ tw ∈ (animateInMesh (resetMesh mesh g).1 (resetMesh mesh g).2).1.timeline,
      tw.time = 0) ∧
    ∃ f ∈ (animateInMesh (resetMesh mesh g).1 (resetMesh mesh g).2).1.timeline,
      f.kind = TweenKind.fadeOut ∧
      ∀ dts : List ℚ, (∀ dt ∈ dts, 0 ≤ dt) → dts.sum < f.delay + f.duration →
        (runTicks easeFn dts
          (animateInMesh (resetMesh mesh g).1 (resetMesh mesh g).2).1).active = true ∧
        (runTicks easeFn dts
          (animateInMesh (resetMesh mesh g).1 (resetMesh mesh g).2).1).visible = true := by
  have hg2 : (resetMesh mesh g).2.Valid := hg.of_draws (resetMesh_draws mesh g)
  obtain ⟨duration, delay, hdur, _, hmem, hfad⟩ :=
    animateInMesh_fading easeFn (resetMesh mesh g).1 (resetMesh mesh g).2 hg2
  refine ⟨by rw [resetMesh_fields], ?_, by rw [animateInMesh_fields]; rfl, ?_,
    fadeTween duration delay 0, hmem, rfl, ?_⟩
  · intro old
    have hr : (resetMesh { mesh with timeline := old } g).2 = (resetMesh mesh g).2 := by
      unfold resetMesh random mathRandom
      simp only
    rw [hr]
    simp only [animateInMesh_fields, resetMesh_fields]
  · intro tw htw
    rw [animateInMesh_fields] at htw
    simp only [List.mem_cons, List.mem_singleton, List.not_mem_nil, or_false] at htw
    rcases htw with h | h <;> rw [h]
  · intro dts hdts hlt
    have hT := runTicks_fading easeFn duration delay (by linarith) dts 0 _ hdts hfad
    rw [zero_add] at hT
    obtain ⟨_, _, hcase⟩ := hT
    simp only [fadeTween] at hlt
    rcases hcase with ⟨_, _, ha, hv, _⟩ | ⟨hge, _, _, _, _⟩
    · exact ⟨ha, hv⟩
    · linarith

/-- Witness of C3: the slot `agedMesh` is `emittedMesh` after `7/5` seconds of
its timeline, with its old fade-out tween due to complete `1/10` of a second
later (left alone, a tick of half a second deactivates it); it is reset and
reactivated with the draws of `quarterRng`, and stays active for as long as its
new fade-out tween has not completed. -/
theorem reactivation_cancels_old_schedule_witness :
    quarterRng.Valid ∧
    runTicks sampleEase [7/5] emittedMesh = agedMesh ∧
    (runTicks sampleEase [1/2] agedMesh).active = false ∧
    (resetMesh agedMesh quarterRng).1.timeline = [] ∧
    (∀ old : List Tween,
      (animateInMesh (resetMesh { agedMesh with timeline := old } quarterRng).1
          (resetMesh { agedMesh with timeline := old } quarterRng).2).1
        = (animateInMesh (resetMesh agedMesh quarterRng).1
            (resetMesh agedMesh quarterRng).2).1) ∧
    (animateInMesh (resetMesh agedMesh quarterRng).1
      (resetMesh agedMesh quarterRng).2).1.timeline.length = 2 ∧
    (∀ tw ∈ (animateInMesh (resetMesh agedMesh quarterRng).1
        (resetMesh agedMesh quarterRng).2).1.timeline, tw.time = 0) ∧
    ∃ f ∈ (animateInMesh (resetMesh agedMesh quarterRng).1
        (resetMesh agedMesh quarterRng).2).1.timeline,
      f.kind = TweenKind.fadeOut ∧
      ∀ dts : List ℚ, (∀ dt ∈ dts, 0 ≤ dt) → dts.sum < f.delay + f.duration →
        (runTicks sampleEase dts (animateInMesh (resetMesh agedMesh quarterRng).1
          (resetMesh agedMesh quarterRng).2).1).active = true ∧
        (runTicks sampleEase dts (animateInMesh (resetMesh agedMesh quarterRng).1
          (resetMesh agedMesh quarterRng).2).1).visible = true :=
  ⟨quarterRng_valid, agedMesh_eq, agedMesh_old_completion,
    reactivation_cancels_old_schedule sampleEase agedMesh quarterRng quarterRng_valid⟩

/-- C4: with `meshHeight`, `minY` and `maxY` as `update` computes them, after
every call of `update` each slot that is active has `position.y` within
`[minY, maxY]`; a slot that was active and whose integrated `position.y` is
outside that interval is inactive and invisible after the call; in particular
an active slot of speed 1 at `position.y = maxY + 1` is deactivated by the next
`update` with `globalSpeed = 1` and `dt ≥ 0`. -/
theorem update_bounds_culling (dt width height : ℚ) (globalSpeed : Option ℚ) (p : Pool) :
    (∀ m1 ∈ (update dt width height globalSpeed p).meshes, m1.active = true →
      minY m1 ≤ m1.positionY ∧ m1.positionY ≤ maxY p.cameraY m1) ∧
    (∀ (i : Nat) (m : Mesh), p.meshes[i]? = some m → m.active = true →
      (m.positionY + dt / 1000 * m.speed * globalSpeed.getD 1 > maxY p.cameraY m ∨
        m.positionY + dt / 1000 * m.speed * globalSpeed.getD 1 < minY m) →
      ∃ m1, (update dt width height globalSpeed p).meshes[i]? = some m1 ∧
        m1.active = false ∧ m1.visible = false) ∧
    (∀ (i : Nat) (m : Mesh), p.meshes[i]? = some m → m.active = true → m.speed = 1 →
      globalSpeed.getD 1 = 1 → 0 ≤ dt → m.positionY = maxY p.cameraY m + 1 →
      ∃ m1, (update dt width height globalSpeed p).meshes[i]? = some m1 ∧
        m1.active = false ∧ m1.visible = false) := by
  have hcull : ∀ (i : Nat) (m : Mesh), p.meshes[i]? = some m → m.active = true →
      (m.positionY + dt / 1000 * m.speed * globalSpeed.getD 1 > maxY p.cameraY m ∨
        m.positionY + dt / 1000 * m.speed * globalSpeed.getD 1 < minY m) →
      ∃ m1, (update dt width height globalSpeed p).meshes[i]? = some m1 ∧
        m1.active = false ∧ m1.visible = false := by
    intro i m hm hact hout
    exact ⟨_, update_getElem? dt width height globalSpeed p i m hm,
      updateMesh_culled dt _ _ p.cameraY m hact hout⟩
  refine ⟨?_, hcull, ?_⟩
  · intro m1 hm1 hact
    simp only [update, List.mem_map] at hm1
    obtain ⟨m, _, rfl⟩ := hm1
    obtain ⟨ha, hin⟩ := updateMesh_active_after _ _ _ _ m hact
    obtain ⟨hmin, hmax⟩ := updateMesh_bounds dt (globalSpeed.getD 1) (p.time + dt / 1000)
      p.cameraY m
    rw [hmin, hmax, updateMesh_positionY _ _ _ _ m ha]
    have hc := not_or.1 hin
    exact ⟨not_lt.1 hc.2, not_lt.1 hc.1⟩
  · intro i m hm hact hspeed hgs hdt hy
    apply hcull i m hm hact
    left
    rw [hspeed, hgs, hy]
    have : 0 ≤ dt / 1000 := div_nonneg hdt (by norm_num)
    linarith

/-- Witness of C4: a pool whose single slot is `overshootMesh`, updated with
`dt = 16` and `globalSpeed = 1`. -/
theorem update_bounds_culling_witness :
    ∃ m1, (update 16 800 600 (some 1)
        { meshes := [overshootMesh], time := 0, cameraY := 0 }).meshes[0]? = some m1 ∧
      m1.active = false ∧ m1.visible = false :=
  (update_bounds_culling 16 800 600 (some 1)
    { meshes := [overshootMesh], time := 0, cameraY := 0 }).2.2 0 overshootMesh rfl rfl rfl rfl
    (by norm_num) (by norm_num [overshootMesh, sampleMesh, maxY, meshHeight])

/-- C5: `findFreeMesh` returns the lowest-indexed slot whose `active` flag is
false (the slot at the returned index is inactive and every slot before it is
active), and it returns `null` exactly when every slot is active. The search
only reads the slot array: its embedding takes the array by value and yields
the index alone. -/
theorem findFreeMesh_lowest_inactive (meshes : List Mesh) :
    (∀ i, findFreeMesh meshes = some i →
      (∃ m, meshes[i]? = some m ∧ m.active = false) ∧
        ∀ j, j < i → ∃ m, meshes[j]? = some m ∧ m.active = true) ∧
    (findFreeMesh meshes = none ↔ ∀ m ∈ meshes, m.active = true) :=
  ⟨fun i h => findFreeMesh_some meshes i h, findFreeMesh_none meshes⟩

/-- C6: for every slot state and every outcome of the draws (each in
`[0, 1)`), after `resetMesh` the slot is inactive and its `position.y` lies in
the spawn band `[INITIAL_Y[0], INITIAL_Y[1]] = [-5, -3]`. -/
theorem resetMesh_inactive_in_spawn_band (mesh : Mesh) (g : Rng) (hg : g.Valid) :
    (resetMesh mesh g).1.active = false ∧
      INITIAL_Y.1 ≤ (resetMesh mesh g).1.positionY ∧
      (resetMesh mesh g).1.positionY ≤ INITIAL_Y.2 ∧
      INITIAL_Y = (-5, -3) := by
  have h := resetMesh_positionY_band mesh g hg
  refine ⟨by rw [resetMesh_fields], ?_, ?_, rfl⟩
  · simpa [INITIAL_Y] using h.1
  · simpa [INITIAL_Y] using h.2.le

/-- Witness of C6: the reset of a slot that is active and mid-animation. -/
theorem resetMesh_inactive_in_spawn_band_witness :
    quarterRng.Valid ∧
      (resetMesh emittedMesh quarterRng).1.active = false ∧
      INITIAL_Y.1 ≤ (resetMesh emittedMesh quarterRng).1.positionY ∧
      (resetMesh emittedMesh quarterRng).1.positionY ≤ INITIAL_Y.2 ∧
      INITIAL_Y = (-5, -3) :=
  ⟨quarterRng_valid, resetMesh_inactive_in_spawn_band emittedMesh quarterRng quarterRng_valid⟩

/-- C7: in every state reachable from pool creation by calls of `emit`, calls
of `update`, timeline ticks and completion callbacks, each slot has
`visible == active`. -/
theorem reachable_visible_eq_active (p : Pool) (hp : Reachable p) :
    ∀ m ∈ p.meshes, m.visible = m.active :=
  fun m hm => (reachable_slotOk hp m hm).1

/-- Witness of C7: the pool of three slots after creation and one `emit`. -/
theorem reachable_visible_eq_active_witness :
    Reachable emittedPool ∧ ∀ m ∈ emittedPool.meshes, m.visible = m.active :=
  ⟨reachable_emittedPool, reachable_visible_eq_active emittedPool reachable_emittedPool⟩

/-- C8 (counterexample): a reachable pool, a slot that is active before the
call, and a call of `update` with `dt = 1000` and `globalSpeed = -1`: the
slot's `position.y` goes from `-9/2` down to `-41/8`. -/
theorem update_drift_counterexample :
    emittedPool.meshes[0]? = some emittedMesh ∧ emittedMesh.active = true ∧
      ((update 1000 800 600 (some (-1)) emittedPool).meshes[0]?).map Mesh.positionY
        = some (-41/8) ∧
      emittedMesh.positionY = -9/2 ∧ ¬ (emittedMesh.positionY ≤ (-41/8 : ℚ)) := by
  refine ⟨rfl, rfl, ?_, rfl, ?_⟩
  · rw [update_getElem? 1000 800 600 (some (-1)) emittedPool 0 emittedMesh rfl]
    simp only [Option.map_some', Option.some.injEq]
    rw [updateMesh_positionY _ _ _ _ _ rfl]
    norm_num [emittedMesh]
  · norm_num [emittedMesh]

/-- C8 (amended): in every reachable state, for every call of `update` with
`dt ≥ 0` and `globalSpeed ≥ 0` and every slot that is active before the call,
the slot's `position.y` after the call is greater than or equal to its
`position.y` before the call. -/
theorem update_drift_upward (p : Pool) (hp : Reachable p) (dt width height : ℚ)
    (globalSpeed : Option ℚ) (hdt : 0 ≤ dt) (hgs : 0 ≤ globalSpeed.getD 1)
    (i : Nat) (m m1 : Mesh) (hm : p.meshes[i]? = some m) (hact : m.active = true)
    (hm1 : (update dt width height globalSpeed p).meshes[i]? = some m1) :
    m.positionY ≤ m1.positionY := by
  rw [update_getElem? dt width height globalSpeed p i m hm] at hm1
  have hspeed : 0 ≤ m.speed := by
    have := (reachable_slotOk hp m (List.mem_iff_getElem?.2 ⟨i, hm⟩)).2.1
    linarith
  rw [← Option.some.inj hm1, updateMesh_positionY _ _ _ _ m hact]
  have h1 : 0 ≤ dt / 1000 := div_nonneg hdt (by norm_num)
  have h2 : 0 ≤ dt / 1000 * m.speed * globalSpeed.getD 1 :=
    mul_nonneg (mul_nonneg h1 hspeed) hgs
  linarith

/-- Witness of C8 (amended): slot 0 of the pool after creation and one `emit`,
updated with `dt = 16` and the default `globalSpeed`. -/
theorem update_drift_upward_witness :
    Reachable emittedPool ∧ emittedMesh.active = true ∧
      emittedMesh.positionY ≤ (updateMesh 16 1 (0 + 16 / 1000) 0 emittedMesh).positionY :=
  ⟨reachable_emittedPool, rfl,
    update_drift_upward emittedPool reachable_emittedPool 16 800 600 none (by norm_num)
      (by norm_num) 0 emittedMesh (updateMesh 16 1 (0 + 16 / 1000) 0 emittedMesh) rfl rfl
      (update_getElem? 16 800 600 none emittedPool 0 emittedMesh rfl)⟩

/-- C9: after `animateInMesh` the `animate` uniform is 1 and a fade-out tween
`f` is pending; under timeline ticks alone (no reset), for an easing curve that
is monotone on `[0, 1]` with `ease 0 = 0` and `ease 1 = 1`: while the elapsed
time is at most `f.delay` the value stays 1; the value never increases from one
tick to a later one; until `f.delay + f.duration` has elapsed the tween has not
deactivated the slot; and once it has elapsed the value is 0 and the slot is
inactive and invisible. -/
theorem animate_fades_from_one_to_zero (easeFn : Ease → ℚ → ℚ)
    (hmono : ∀ a b : ℚ, 0 ≤ a → a ≤ b → b ≤ 1 → easeFn Ease.quadOut a ≤ easeFn Ease.quadOut b)
    (h0 : easeFn Ease.quadOut 0 = 0) (h1 : easeFn Ease.quadOut 1 = 1)
    (mesh : Mesh) (g : Rng) (hg : g.Valid) :
    (animateInMesh mesh g).1.uniforms.animate = 1 ∧
    ∃ f ∈ (animateInMesh mesh g).1.timeline, f.kind = TweenKind.fadeOut ∧
      ∀ dts : List ℚ, (∀ dt ∈ dts, 0 ≤ dt) →
        (dts.sum ≤ f.delay →
          (runTicks easeFn dts (animateInMesh mesh g).1).uniforms.animate = 1) ∧
        (∀ more : List ℚ, (∀ dt ∈ more, 0 ≤ dt) →
          (runTicks easeFn (dts ++ more) (animateInMesh mesh g).1).uniforms.animate ≤
            (runTicks easeFn dts (animateInMesh mesh g).1).uniforms.animate) ∧
        (dts.sum < f.delay + f.duration →
          (runTicks easeFn dts (animateInMesh mesh g).1).active = true) ∧
        (f.delay + f.duration ≤ dts.sum →
          (runTicks easeFn dts (animateInMesh mesh g).1).uniforms.animate = 0 ∧
          (runTicks easeFn dts (animateInMesh mesh g).1).active = false ∧
          (runTicks easeFn dts (animateInMesh mesh g).1).visible = false) := by
  obtain ⟨duration, delay, hdur, hdelay, hmem, hfad⟩ := animateInMesh_fading easeFn mesh g hg
  have hdur0 : 0 < duration := by linarith
  refine ⟨by rw [animateInMesh_fields], fadeTween duration delay 0, hmem, rfl, ?_⟩
  intro dts hdts
  have hT := runTicks_fading easeFn duration delay hdur0 dts 0 _ hdts hfad
  rw [zero_add] at hT
  have hT' := hT
  obtain ⟨_, _, hcase⟩ := hT'
  simp only [fadeTween]
  refine ⟨?_, ?_, ?_, ?_⟩
  · intro hle
    rcases hcase with ⟨_, _, _, _, ha⟩ | ⟨hge, _, _, _, _⟩
    · rw [ha, fadeValue_before _ _ _ _ hle]
    · linarith
  · intro more hmore
    have hT2 := runTicks_fading easeFn duration delay hdur0 more dts.sum _ hmore hT
    have hsum : 0 ≤ more.sum := List.sum_nonneg hmore
    have happ : runTicks easeFn (dts ++ more) (animateInMesh mesh g).1
        = runTicks easeFn more (runTicks easeFn dts (animateInMesh mesh g).1) := by
      simp [runTicks, List.foldl_append]
    rw [happ]
    exact Fading.animate_le easeFn hmono h0 h1 duration delay hdur0 hT hT2 (by linarith)
  · intro hlt
    rcases hcase with ⟨_, _, ha, _, _⟩ | ⟨hge, _, _, _, _⟩
    · exact ha
    · linarith
  · intro hge
    rcases hcase with ⟨hlt, _, _, _, _⟩ | ⟨_, _, ha, hv, hn⟩
    · linarith
    · refine ⟨?_, ha, hv⟩
      rw [hn, h1]
      norm_num

/-- Witness of C9: the slot `sampleMesh false` activated with the draws of
`quarterRng`, under the easing curves of `sampleEase`. -/
theorem animate_fades_from_one_to_zero_witness :
    quarterRng.Valid ∧ sampleEase Ease.quadOut 0 = 0 ∧ sampleEase Ease.quadOut 1 = 1 ∧
    (animateInMesh (sampleMesh false) quarterRng).1.uniforms.animate = 1 ∧
    ∃ f ∈ (animateInMesh (sampleMesh false) quarterRng).1.timeline,
      f.kind = TweenKind.fadeOut ∧
      ∀ dts : List ℚ, (∀ dt ∈ dts, 0 ≤ dt) →
        (dts.sum ≤ f.delay →
          (runTicks sampleEase dts
            (animateInMesh (sampleMesh false) quarterRng).1).uniforms.animate = 1) ∧
        (∀ more : List ℚ, (∀ dt ∈ more, 0 ≤ dt) →
          (runTicks sampleEase (dts ++ more)
            (animateInMesh (sampleMesh false) quarterRng).1).uniforms.animate ≤
            (runTicks sampleEase dts
              (animateInMesh (sampleMesh false) quarterRng).1).uniforms.animate) ∧
        (dts.sum < f.delay + f.duration →
          (runTicks sampleEase dts (animateInMesh (sampleMesh false) quarterRng).1).active
            = true) ∧
        (f.delay + f.duration ≤ dts.sum →
          (runTicks sampleEase dts
            (animateInMesh (sampleMesh false) quarterRng).1).uniforms.animate = 0 ∧
          (runTicks sampleEase dts (animateInMesh (sampleMesh false) quarterRng).1).active
            = false ∧
          (runTicks sampleEase dts (animateInMesh (sampleMesh false) quarterRng).1).visible
            = false) :=
  ⟨quarterRng_valid, by norm_num [sampleEase], by norm_num [sampleEase],
    animate_fades_from_one_to_zero sampleEase sampleEase_mono (by norm_num [sampleEase])
      (by norm_num [sampleEase]) (sampleMesh false) quarterRng quarterRng_valid⟩

/-- C10 (counterexample): `emit` called with the empty palette on a pool of
three free slots activates slot 0 (inactive before, active after), and the
colour handed to it is the `undefined` read from the empty array: no element of
the palette exists that it could be. -/
theorem emit_empty_palette_counterexample :
    samplePool.meshes[0]? = some (sampleMesh false) ∧ (sampleMesh false).active = false ∧
      ((emit ⟨1, 2⟩ [] samplePool.meshes quarterRng).meshes[0]?).map (fun m => m.active)
        = some true ∧
      ((emit ⟨1, 2⟩ [] samplePool.meshes quarterRng).meshes[0]?).map (fun m => m.uniforms.color)
        = some none ∧
      ¬ ∃ c ∈ ([] : List String), (none : Option String) = some c := by
  refine ⟨rfl, rfl, by decide, by decide, by simp⟩

/-- C10 (amended): every slot that a call of `emit` with a non-empty palette
activates (inactive before the call, active when it ends) then has `active` and
`visible` true, its `screenOffset` and its `screenOffset` uniform equal to
`screenPosition`, its colour set from an element of the palette, `rotationY`
zero, `position.y` in the spawn band `[-5, -3]`, and the `animate` and
`opacity` uniforms equal to 1. -/
theorem emit_activation_postcondition (screenPosition : Vec2) (palette : List String)
    (meshes : List Mesh) (g : Rng) (hg : g.Valid) (hpal : palette ≠ [])
    (i : Nat) (m m1 : Mesh) (hm : meshes[i]? = some m) (hfree : m.active = false)
    (hm1 : (emit screenPosition palette meshes g).meshes[i]? = some m1)
    (hact : m1.active = true) :
    m1.active = true ∧ m1.visible = true ∧ m1.screenOffset = screenPosition ∧
      m1.uniforms.screenOffset = screenPosition ∧
      (∃ c ∈ palette, m1.uniforms.color = some c) ∧ m1.rotationY = 0 ∧
      (-5 ≤ m1.positionY ∧ m1.positionY ≤ -3) ∧
      m1.uniforms.animate = 1 ∧ m1.uniforms.opacity = 1 := by
  obtain ⟨m2, hm2, hcase⟩ := emitLoop_slots screenPosition palette hpal meshesPerEmit meshes g hg
    i m hm
  have heq : m2 = m1 := by
    unfold emit at hm1
    rw [hm2] at hm1
    exact Option.some.inj hm1
  subst heq
  rcases hcase with h | h
  · rw [h, hfree] at hact
    cases hact
  · exact h.2

/-- Witness of C10 (amended): slot 0 of a pool of three free slots, after `emit` at
`⟨1, 2⟩` with the palette `["red", "blue"]`. -/
theorem emit_activation_postcondition_witness :
    emittedMesh.active = true ∧ emittedMesh.visible = true ∧
      emittedMesh.screenOffset = ⟨1, 2⟩ ∧ emittedMesh.uniforms.screenOffset = ⟨1, 2⟩ ∧
      (∃ c ∈ ["red", "blue"], emittedMesh.uniforms.color = some c) ∧
      emittedMesh.rotationY = 0 ∧
      (-5 ≤ emittedMesh.positionY ∧ emittedMesh.positionY ≤ -3) ∧
      emittedMesh.uniforms.animate = 1 ∧ emittedMesh.uniforms.opacity = 1 :=
  emit_activation_postcondition ⟨1, 2⟩ ["red", "blue"] samplePool.meshes quarterRng
    quarterRng_valid (by simp) 0 (sampleMesh false) emittedMesh rfl rfl
    (by rw [emit_sample_meshes]; rfl) rfl

/-- C11 (counterexample): slot 0 of `emittedPool` is active with speed `5/8`
and `position.y = -9/2`; `update` with `dt = 1000` and `globalSpeed = 1` leaves
it at `-31/8`, having added `5/8`, not `dt * speed * globalSpeed = 625`; and it
leaves `rotationY` at `-1/4`, having added `-1/4`, not `dt * rotationFactor =
-250`. -/
theorem update_integration_counterexample :
    emittedPool.meshes[0]? = some emittedMesh ∧ emittedMesh.active = true ∧
      ((update 1000 800 600 (some 1) emittedPool).meshes[0]?).map Mesh.positionY
        = some (-31/8) ∧
      emittedMesh.positionY + 1000 * emittedMesh.speed * 1 = 1241/2 ∧
      ((update 1000 800 600 (some 1) emittedPool).meshes[0]?).map Mesh.rotationY
        = some (-1/4) ∧
      emittedMesh.rotationY + 1000 * emittedMesh.rotationFactor = -250 := by
  have hup := update_getElem? 1000 800 600 (some 1) emittedPool 0 emittedMesh rfl
  refine ⟨rfl, rfl, ?_, ?_, ?_, ?_⟩
  · rw [hup]
    simp only [Option.map_some', Option.some.injEq]
    rw [updateMesh_positionY _ _ _ _ _ rfl]
    norm_num [emittedMesh]
  · norm_num [emittedMesh]
  · rw [hup]
    simp only [Option.map_some', Option.some.injEq]
    rw [updateMesh_rotationY _ _ _ _ _ rfl]
    norm_num [emittedMesh]
  · norm_num [emittedMesh]

/-- C11 (amended): for every call of `update` and every slot that is active
before the call, the call adds exactly `(dt / 1000) * speed * globalSpeed` to
the slot's `position.y` and exactly `(dt / 1000) * rotationFactor` to its
`rotationY`, `dt` being the time step in milliseconds passed to `update`; it
advances the clock by `dt / 1000` and writes the advanced clock to the slot's
`iGlobalTime` uniform. -/
theorem update_integration (dt width height : ℚ) (globalSpeed : Option ℚ) (p : Pool)
    (i : Nat) (m : Mesh) (hm : p.meshes[i]? = some m) (hact : m.active = true) :
    ∃ m1, (update dt width height globalSpeed p).meshes[i]? = some m1 ∧
      m1.positionY = m.positionY + dt / 1000 * m.speed * globalSpeed.getD 1 ∧
      m1.rotationY = m.rotationY + dt / 1000 * m.rotationFactor ∧
      (update dt width height globalSpeed p).time = p.time + dt / 1000 ∧
      m1.uniforms.iGlobalTime = (update dt width height globalSpeed p).time := by
  refine ⟨_, update_getElem? dt width height globalSpeed p i m hm,
    updateMesh_positionY _ _ _ _ m hact, updateMesh_rotationY _ _ _ _ m hact, rfl, ?_⟩
  rw [updateMesh_of_active _ _ _ _ m hact]
  split_ifs <;> rfl

/-- Witness of C11 (amended): slot 0 of `emittedPool`, updated with `dt = 16`
and the default `globalSpeed`. -/
theorem update_integration_witness :
    emittedPool.meshes[0]? = some emittedMesh ∧ emittedMesh.active = true ∧
    ∃ m1, (update 16 800 600 none emittedPool).meshes[0]? = some m1 ∧
      m1.positionY = emittedMesh.positionY + 16 / 1000 * emittedMesh.speed * (none).getD 1 ∧
      m1.rotationY = emittedMesh.rotationY + 16 / 1000 * emittedMesh.rotationFactor ∧
      (update 16 800 600 none emittedPool).time = emittedPool.time + 16 / 1000 ∧
      m1.uniforms.iGlobalTime = (update 16 800 600 none emittedPool).time :=
  ⟨rfl, rfl, update_integration 16 800 600 none emittedPool 0 emittedMesh rfl rfl⟩

/-- C12: for every non-empty palette and every draw `u` in `[0, 1)` the index
`floor(u * palette.length)` that `emit` uses is at least 0 and less than the
length, so the colour picked is an element of the palette; and for every index
`i` below the length there is a draw in `[0, 1)`, namely `i / palette.length`,
that picks `palette[i]`. -/
theorem pickColor_in_range_and_onto (palette : List String) (hpal : palette ≠ []) :
    (∀ u : ℚ, 0 ≤ u → u < 1 →
      0 ≤ ⌊u * (palette.length : ℚ)⌋ ∧ ⌊u * (palette.length : ℚ)⌋.toNat < palette.length ∧
        ∃ c ∈ palette, pickColor palette u = some c) ∧
    (∀ (i : Nat) (hi : i < palette.length),
      ∃ u : ℚ, 0 ≤ u ∧ u < 1 ∧ pickColor palette u = some palette[i]) := by
  constructor
  · intro u h0 h1
    obtain ⟨hlo, hhi⟩ := pickColor_index_lt palette u h0 h1 hpal
    exact ⟨hlo, hhi, pickColor_mem palette u h0 h1 hpal⟩
  · intro i hi
    exact ⟨(i : ℚ) / (palette.length : ℚ), pickColor_onto palette i hi⟩

/-- Witness of C12: the palette `["red", "blue"]`; the draw `1/4` picks `"red"`
and the draw `3/4` picks `"blue"`. -/
theorem pickColor_in_range_and_onto_witness :
    pickColor ["red", "blue"] (1/4) = some "red" ∧
    pickColor ["red", "blue"] (3/4) = some "blue" ∧
    (∀ u : ℚ, 0 ≤ u → u < 1 →
      0 ≤ ⌊u * ((["red", "blue"] : List String).length : ℚ)⌋ ∧
        ⌊u * ((["red", "blue"] : List String).length : ℚ)⌋.toNat
          < (["red", "blue"] : List String).length ∧
        ∃ c ∈ ["red", "blue"], pickColor ["red", "blue"] u = some c) ∧
    (∀ (i : Nat) (hi : i < (["red", "blue"] : List String).length),
      ∃ u : ℚ, 0 ≤ u ∧ u < 1 ∧
        pickColor ["red", "blue"] u = some (["red", "blue"] : List String)[i]) :=
  ⟨pickColor_quarter, pickColor_threeQuarter,
    pickColor_in_range_and_onto ["red", "blue"] (by simp)⟩

/-- C13: the cache `geometries` is built from `totalGeometries` generator
invocations; each invocation has type 0 or type 1 and generates a complex; the
cache holds, in invocation order, exactly one entry for each invocation whose
complex has at least one cell (the descriptor `createComplex` builds from it)
and none for an invocation whose complex has no cell; so it has at most
`totalGeometries` entries, and each entry is a descriptor, not `null`. -/
theorem geometries_cache (gens : Generators) (g : Rng) :
    (invocations gens totalGeometries g).length = totalGeometries ∧
    (∀ inv ∈ invocations gens totalGeometries g,
      (inv.1.type = 0 ∨ inv.1.type = 1) ∧ ∃ complex, inv.2 = some complex) ∧
    (createGeometries gens totalGeometries g).1
      = (invocations gens totalGeometries g).map cacheEntry ∧
    geometries gens g = (invocations gens totalGeometries g).filterMap cacheEntry ∧
    (∀ (opt : GeometryOptions) (complex : Complex),
      (complex.cells.length = 0 → cacheEntry (opt, some complex) = none) ∧
      (1 ≤ complex.cells.length →
        cacheEntry (opt, some complex) = some (createComplex complex opt))) ∧
    (geometries gens g).length ≤ totalGeometries ∧
    (∀ geometry ∈ geometries gens g, ∃ inv ∈ invocations gens totalGeometries g,
      ∃ complex, inv.2 = some complex ∧ 1 ≤ complex.cells.length ∧
        geometry = createComplex complex inv.1) := by
  have hmap := createGeometries_eq_map gens totalGeometries g
  have hgeo : geometries gens g = (invocations gens totalGeometries g).filterMap cacheEntry := by
    unfold geometries
    rw [hmap, List.filterMap_map]
    rfl
  refine ⟨invocations_length gens _ g, invocations_dispatch gens _ g, hmap, hgeo, ?_, ?_, ?_⟩
  · intro opt complex
    constructor
    · intro h
      simp [cacheEntry, h]
    · intro h
      have h0 : complex.cells.length ≠ 0 := by omega
      simp [cacheEntry, h0]
  · rw [hgeo]
    calc ((invocations gens totalGeometries g).filterMap cacheEntry).length
        ≤ (invocations gens totalGeometries g).length := List.length_filterMap_le _ _
      _ = totalGeometries := invocations_length gens _ g
  · intro geometry hmem
    rw [hgeo, List.mem_filterMap] at hmem
    obtain ⟨inv, hinv, hentry⟩ := hmem
    refine ⟨inv, hinv, ?_⟩
    unfold cacheEntry at hentry
    cases hc : inv.2 with
    | none => rw [hc] at hentry; simp at hentry
    | some complex =>
      rw [hc] at hentry
      simp only at hentry
      by_cases h0 : complex.cells.length = 0
      · rw [if_pos h0] at hentry
        cases hentry
      · rw [if_neg h0] at hentry
        exact ⟨complex, rfl, by omega, (Option.some.inj hentry).symm⟩

/-- C14: for every call of `update`, a slot that is inactive before the call is
the same slot after it, field for field, and so still inactive; a slot that is
active after the call was active before it; and the number of active slots
after the call is at most the number before. -/
theorem update_skips_inactive (dt width height : ℚ) (globalSpeed : Option ℚ) (p : Pool) :
    (∀ (i : Nat) (m : Mesh), p.meshes[i]? = some m → m.active = false →
      (update dt width height globalSpeed p).meshes[i]? = some m) ∧
    (∀ (i : Nat) (m1 : Mesh), (update dt width height globalSpeed p).meshes[i]? = some m1 →
      m1.active = true → ∃ m, p.meshes[i]? = some m ∧ m.active = true) ∧
    activeCount (update dt width height globalSpeed p).meshes ≤ activeCount p.meshes := by
  refine ⟨?_, ?_, ?_⟩
  · intro i m hm hfree
    rw [update_getElem? dt width height globalSpeed p i m hm,
      updateMesh_of_inactive _ _ _ _ m hfree]
  · intro i m1 hm1 hact
    cases hm : p.meshes[i]? with
    | none => simp [update, List.getElem?_map, hm] at hm1
    | some m =>
      rw [update_getElem? dt width height globalSpeed p i m hm] at hm1
      refine ⟨m, rfl, ?_⟩
      rw [← Option.some.inj hm1] at hact
      exact updateMesh_active_le _ _ _ _ m hact
  · simp only [activeCount, update, List.countP_map]
    apply List.countP_mono_left
    intro m _ h
    exact updateMesh_active_le _ _ _ _ m (by simpa using h)

/-- Witness of C14: slot 2 of `emittedPool` is free and is left as it is by an
`update` with `dt = 16`. -/
theorem update_skips_inactive_witness :
    emittedPool.meshes[2]? = some (sampleMesh false) ∧ (sampleMesh false).active = false ∧
      (update 16 800 600 none emittedPool).meshes[2]? = some (sampleMesh false) :=
  ⟨rfl, rfl, (update_skips_inactive 16 800 600 none emittedPool).1 2 (sampleMesh false) rfl rfl⟩

/-- C15: for every outcome of the draws, `animateInMesh` schedules exactly a
scale-in tween of duration `d1` in `[1/2, 1]` without delay and a fade-out
tween of duration `d2` in `[1/2, 1]` with delay `d1 + δ`, `δ` in `[0, 1]`; the
delay is at least `d1`, and the fade-out's end `d1 + δ + d2`, at which its
completion handler deactivates the slot, lies in `[1, 3]`. -/
theorem animateInMesh_schedule (mesh : Mesh) (g : Rng) (hg : g.Valid) :
    ∃ d1 δ d2 : ℚ,
      (animateInMesh mesh g).1.timeline = [scaleTween d1 0, fadeTween d2 (d1 + δ) 0] ∧
      (1/2 ≤ d1 ∧ d1 ≤ 1) ∧ (0 ≤ δ ∧ δ ≤ 1) ∧ (1/2 ≤ d2 ∧ d2 ≤ 1) ∧
      (scaleTween d1 0).delay + (scaleTween d1 0).duration ≤ (fadeTween d2 (d1 + δ) 0).delay ∧
      (1 ≤ (fadeTween d2 (d1 + δ) 0).delay + (fadeTween d2 (d1 + δ) 0).duration ∧
        (fadeTween d2 (d1 + δ) 0).delay + (fadeTween d2 (d1 + δ) 0).duration ≤ 3) := by
  have hd1 := hg g.pos
  have hd2 := hg (g.pos + 1)
  have hd3 := hg (g.pos + 2)
  refine ⟨g.draws g.pos * (1 - 1/2) + 1/2, g.draws (g.pos + 2) * (1 - 0) + 0,
    g.draws (g.pos + 1) * (1 - 1/2) + 1/2, ?_, ?_, ?_, ?_, ?_, ?_⟩
  · rw [animateInMesh_fields]
    rfl
  · constructor <;> linarith [hd1.1, hd1.2]
  · constructor <;> linarith [hd3.1, hd3.2]
  · constructor <;> linarith [hd2.1, hd2.2]
  · simp only [scaleTween, fadeTween]
    linarith [hd3.1]
  · simp only [fadeTween]
    constructor <;> linarith [hd1.1, hd1.2, hd2.1, hd2.2, hd3.1, hd3.2]

/-- Witness of C15: the schedule of a slot activated with the draws of
`quarterRng`. -/
theorem animateInMesh_schedule_witness :
    quarterRng.Valid ∧
    ∃ d1 δ d2 : ℚ,
      (animateInMesh (sampleMesh false) quarterRng).1.timeline
        = [scaleTween d1 0, fadeTween d2 (d1 + δ) 0] ∧
      (1/2 ≤ d1 ∧ d1 ≤ 1) ∧ (0 ≤ δ ∧ δ ≤ 1) ∧ (1/2 ≤ d2 ∧ d2 ≤ 1) ∧
      (scaleTween d1 0).delay + (scaleTween d1 0).duration ≤ (fadeTween d2 (d1 + δ) 0).delay ∧
      (1 ≤ (fadeTween d2 (d1 + δ) 0).delay + (fadeTween d2 (d1 + δ) 0).duration ∧
        (fadeTween d2 (d1 + δ) 0).delay + (fadeTween d2 (d1 + δ) 0).duration ≤ 3) :=
  ⟨quarterRng_valid, animateInMesh_schedule (sampleMesh false) quarterRng quarterRng_valid⟩

/-- C16: for every slot state and every outcome of the draws, after
`resetMesh` the slot is invisible, its `rotationY`, `animate` uniform and
`opacity` uniform are 0, its speed is in `[1/2, 1]` and so positive, its
`rotationFactor` is in `[-1/2, 1/2]`, its `dance` uniform is in `[0, 1]`, its
`screenOffset` uniform equals its `screenOffset`, and its `screenOffset` and
colour are those it had before. -/
theorem resetMesh_baseline (mesh : Mesh) (g : Rng) (hg : g.Valid) :
    (resetMesh mesh g).1.visible = false ∧ (resetMesh mesh g).1.rotationY = 0 ∧
      (resetMesh mesh g).1.uniforms.animate = 0 ∧ (resetMesh mesh g).1.uniforms.opacity = 0 ∧
      (1/2 ≤ (resetMesh mesh g).1.speed ∧ (resetMesh mesh g).1.speed ≤ 1) ∧
      0 < (resetMesh mesh g).1.speed ∧
      (-1/2 ≤ (resetMesh mesh g).1.rotationFactor ∧ (resetMesh mesh g).1.rotationFactor ≤ 1/2) ∧
      (0 ≤ (resetMesh mesh g).1.uniforms.dance ∧ (resetMesh mesh g).1.uniforms.dance ≤ 1) ∧
      (resetMesh mesh g).1.uniforms.screenOffset = (resetMesh mesh g).1.screenOffset ∧
      (resetMesh mesh g).1.screenOffset = mesh.screenOffset ∧
      (resetMesh mesh g).1.uniforms.color = mesh.uniforms.color := by
  have h0 := hg g.pos
  have h1 := hg (g.pos + 1)
  have h4 := hg (g.pos + 4)
  rw [resetMesh_fields]
  refine ⟨rfl, rfl, rfl, rfl, ⟨?_, ?_⟩, ?_, ⟨?_, ?_⟩, ⟨?_, ?_⟩, rfl, rfl, rfl⟩
  · simp only; linarith [h1.1]
  · simp only; linarith [h1.2]
  · simp only; linarith [h1.1]
  · simp only; linarith [h0.1]
  · simp only; linarith [h0.2]
  · simp only
    split_ifs
    · linarith [h4.1]
    · exact le_refl 0
  · simp only
    split_ifs
    · linarith [h4.2]
    · norm_num

/-- Witness of C16: the reset of the active, mid-animation slot `emittedMesh`
with the draws of `quarterRng`. -/
theorem resetMesh_baseline_witness :
    quarterRng.Valid ∧
    (resetMesh emittedMesh quarterRng).1.visible = false ∧
      (resetMesh emittedMesh quarterRng).1.rotationY = 0 ∧
      (resetMesh emittedMesh quarterRng).1.uniforms.animate = 0 ∧
      (resetMesh emittedMesh quarterRng).1.uniforms.opacity = 0 ∧
      (1/2 ≤ (resetMesh emittedMesh quarterRng).1.speed ∧
        (resetMesh emittedMesh quarterRng).1.speed ≤ 1) ∧
      0 < (resetMesh emittedMesh quarterRng).1.speed ∧
      (-1/2 ≤ (resetMesh emittedMesh quarterRng).1.rotationFactor ∧
        (resetMesh emittedMesh quarterRng).1.rotationFactor ≤ 1/2) ∧
      (0 ≤ (resetMesh emittedMesh quarterRng).1.uniforms.dance ∧
        (resetMesh emittedMesh quarterRng).1.uniforms.dance ≤ 1) ∧
      (resetMesh emittedMesh quarterRng).1.uniforms.screenOffset
        = (resetMesh emittedMesh quarterRng).1.screenOffset ∧
      (resetMesh emittedMesh quarterRng).1.screenOffset = emittedMesh.screenOffset ∧
      (resetMesh emittedMesh quarterRng).1.uniforms.color = emittedMesh.uniforms.color :=
  ⟨quarterRng_valid, resetMesh_baseline emittedMesh quarterRng quarterRng_valid⟩

/-- C17: for every pool state and every call of `emit`, whether it returns or
throws, each slot that is active before the call is the same slot after it,
field for field (flags, position, rotation, speed, offsets, colour, uniforms
and scheduled tweens), and the slot array keeps its length; so only slots that
were inactive before the call are modified. -/
theorem emit_keeps_active_slots (screenPosition : Vec2) (palette : List String)
    (meshes : List Mesh) (g : Rng) (i : Nat) (m : Mesh) (hm : meshes[i]? = some m)
    (hact : m.active = true) :
    (emit screenPosition palette meshes g).meshes[i]? = some m ∧
      (emit screenPosition palette meshes g).meshes.length = meshes.length :=
  ⟨emitLoop_active_unchanged screenPosition palette meshesPerEmit meshes g i m hm hact,
    emitLoop_length screenPosition palette meshesPerEmit meshes g⟩

/-- Witness of C17: slot 0 of `emittedPool` is active and mid-animation; a
further call of `emit` leaves it as it is. -/
theorem emit_keeps_active_slots_witness :
    emittedPool.meshes[0]? = some emittedMesh ∧ emittedMesh.active = true ∧
      (emit ⟨3, 4⟩ ["red", "blue"] emittedPool.meshes quarterRng).meshes[0]?
        = some emittedMesh ∧
      (emit ⟨3, 4⟩ ["red", "blue"] emittedPool.meshes quarterRng).meshes.length
        = emittedPool.meshes.length :=
  ⟨rfl, rfl,
    emit_keeps_active_slots ⟨3, 4⟩ ["red", "blue"] emittedPool.meshes quarterRng 0 emittedMesh
      rfl rfl⟩

/-- C18: the culling branch of `update` leaves the slot's timeline as it was;
the completion handler of the fade-out tween leaves `active` and `visible`
false whatever they were, so it never sets either to true; and when it fires on
a slot that `update` has culled, the flags are false before and after, the slot
is not changed at all, and neither is any other slot of the pool. -/
theorem culled_then_completion_harmless (dt width height : ℚ) (globalSpeed : Option ℚ)
    (p : Pool) (i : Nat) (m : Mesh) (hm : p.meshes[i]? = some m) (hact : m.active = true)
    (hout : m.positionY + dt / 1000 * m.speed * globalSpeed.getD 1 > maxY p.cameraY m ∨
      m.positionY + dt / 1000 * m.speed * globalSpeed.getD 1 < minY m) :
    (∃ m1, (update dt width height globalSpeed p).meshes[i]? = some m1 ∧
      m1.timeline = m.timeline ∧ m1.active = false ∧ m1.visible = false ∧
      (onComplete TweenKind.fadeOut m1).active = false ∧
      (onComplete TweenKind.fadeOut m1).visible = false ∧
      onComplete TweenKind.fadeOut m1 = m1) ∧
    modifySlot (onComplete TweenKind.fadeOut) i (update dt width height globalSpeed p)
      = update dt width height globalSpeed p ∧
    (∀ (j : Nat) (q : Pool), j ≠ i →
      (modifySlot (onComplete TweenKind.fadeOut) i q).meshes[j]? = q.meshes[j]?) ∧
    (∀ (kind : TweenKind) (s : Mesh),
      ((onComplete kind s).active = true → s.active = true) ∧
      ((onComplete kind s).visible = true → s.visible = true)) ∧
    (∀ s : Mesh, (onComplete TweenKind.fadeOut s).active = false ∧
      (onComplete TweenKind.fadeOut s).visible = false) := by
  have hup := update_getElem? dt width height globalSpeed p i m hm
  obtain ⟨ha, hv⟩ := updateMesh_culled dt (globalSpeed.getD 1) (p.time + dt / 1000) p.cameraY m
    hact hout
  have hsame := onComplete_of_inactive TweenKind.fadeOut _ ha hv
  refine ⟨⟨_, hup, updateMesh_timeline _ _ _ _ m, ha, hv, rfl, rfl, hsame⟩, ?_, ?_, ?_, ?_⟩
  · have hlist : (update dt width height globalSpeed p).meshes.modify
        (onComplete TweenKind.fadeOut) i = (update dt width height globalSpeed p).meshes := by
      apply List.ext_getElem?
      intro j
      rw [List.getElem?_modify]
      by_cases hij : i = j
      · subst hij
        rw [hup]
        simp [hsame]
      · cases h : (update dt width height globalSpeed p).meshes[j]? <;> simp [hij]
    simp only [modifySlot, hlist]
  · intro j q hji
    simp only [modifySlot]
    exact List.getElem?_modify_ne _ _ (Ne.symm hji)
  · intro kind s
    cases kind
    · exact ⟨fun h => h, fun h => h⟩
    · exact ⟨fun h => by simp [onComplete] at h, fun h => by simp [onComplete] at h⟩
  · intro s
    exact ⟨rfl, rfl⟩

/-- Witness of C18: the pool whose single slot is `strayMesh`, active with its
two tweens pending and above its upper bound, updated with `dt = 16`. -/
theorem culled_then_completion_harmless_witness :
    strayMesh.active = true ∧ strayMesh.timeline.length = 2 ∧
    (∃ m1, (update 16 800 600 none
        { meshes := [strayMesh], time := 0, cameraY := 0 }).meshes[0]? = some m1 ∧
      m1.timeline = strayMesh.timeline ∧ m1.active = false ∧ m1.visible = false ∧
      (onComplete TweenKind.fadeOut m1).active = false ∧
      (onComplete TweenKind.fadeOut m1).visible = false ∧
      onComplete TweenKind.fadeOut m1 = m1) ∧
    modifySlot (onComplete TweenKind.fadeOut) 0
        (update 16 800 600 none { meshes := [strayMesh], time := 0, cameraY := 0 })
      = update 16 800 600 none { meshes := [strayMesh], time := 0, cameraY := 0 } :=
  ⟨rfl, rfl,
    (culled_then_completion_harmless 16 800 600 none
      { meshes := [strayMesh], time := 0, cameraY := 0 } 0 strayMesh rfl rfl
      (Or.inl (by norm_num [strayMesh, emittedMesh, maxY, meshHeight]))).1,
    (culled_then_completion_harmless 16 800 600 none
      { meshes := [strayMesh], time := 0, cameraY := 0 } 0 strayMesh rfl rfl
      (Or.inl (by norm_num [strayMesh, emittedMesh, maxY, meshHeight]))).2.1⟩

end MeshPool
